import Mathlib

/-!
# ST7789 display driver: dirty-rectangle tracker, flush engine, window addressing

Shallow embedding of `_display/st7789/st7789.c` (PicoLibSDK).

Conventions of the embedding

* A C `int` is the 32-bit two's-complement integer of the RP2040 (ARMv6-M).  Its value is a
  Lean `Int`; every `+`, `-`, `*` on `int` is followed by `wrap32`, which keeps the low 32 bits,
  as the machine instructions do.  A parameter of type `int` satisfies `IsInt`.
* `u32`, `u16`, `u8` values are reduced with an explicit `% 2^32`, `% 2^16`, `% 2^8`.
* `FrameBuf` is the memory seen from `&FrameBuf[0]` in `u16` cells: a function from the cell
  index to the cell value; a `u16` cell lies in memory low byte first (little-endian core).
* The four globals `DispDirtyX1, DispDirtyX2, DispDirtyY1, DispDirtyY2` form the record `Dirty`,
  passed explicitly; `DispAutoUpdateLast` is passed explicitly as well.
* Bus activity (GPIO writes of the chip-select and data/command pins, SPI block sends) is the
  list of `BusOp` a function emits, in program order.
* `WIDTH` and `HEIGHT` are the values of `main.h` (320 and 240).
-/

namespace ST7789

/-! ## Machine integers -/

/-- Smallest value of a 32-bit `int`. -/
def INT_MIN : Int := -2147483648

/-- Largest value of a 32-bit `int`. -/
def INT_MAX : Int := 2147483647

/-- The value `v` is representable as a 32-bit `int`. -/
def IsInt (v : Int) : Prop := -2147483648 ≤ v ∧ v ≤ 2147483647

instance (v : Int) : Decidable (IsInt v) := by
  unfold IsInt
  infer_instance

/-- Result of 32-bit `int` arithmetic: the low 32 bits of `v`, read as two's complement. -/
def wrap32 (v : Int) : Int := (v + 2147483648) % 4294967296 - 2147483648

/-- Conversion to `u32`. -/
def toU32 (v : Int) : Int := v % 4294967296

/-- Conversion to `u16`. -/
def toU16 (v : Int) : Int := v % 65536

/-- Conversion to `u8`. -/
def toU8 (v : Int) : Int := v % 256

/-! ## Screen geometry (`main.h`) -/

/-- Screen width in pixels, `#define WIDTH 320`. -/
def WIDTH : Int := 320

/-- Screen height in pixels, `#define HEIGHT 240`. -/
def HEIGHT : Int := 240

/-! ## Dirty window -/

/-- The globals `int DispDirtyX1, DispDirtyX2, DispDirtyY1, DispDirtyY2`. -/
structure Dirty where
  DispDirtyX1 : Int
  DispDirtyX2 : Int
  DispDirtyY1 : Int
  DispDirtyY2 : Int
deriving DecidableEq, Repr

/-- Source `DispDirtyAll`: set dirty all frame buffer. -/
def DispDirtyAll : Dirty :=
  { DispDirtyX1 := 0, DispDirtyX2 := WIDTH, DispDirtyY1 := 0, DispDirtyY2 := HEIGHT }

/-- Source `DispDirtyNone`: set dirty none (clear after update). -/
def DispDirtyNone : Dirty :=
  { DispDirtyX1 := WIDTH, DispDirtyX2 := 0, DispDirtyY1 := HEIGHT, DispDirtyY2 := 0 }

/-- Source `DispDirtyRect`: update dirty area by rectangle (check valid range).
The locals `x, w, y, h` are renamed at each assignment (`xa`, `wa`, `wb`, ...). -/
def DispDirtyRect (s : Dirty) (x y w h : Int) : Dirty :=
  let wa := if x < 0 then wrap32 (w + x) else w
  let xa := if x < 0 then 0 else x
  let wb := if wrap32 (xa + wa) > WIDTH then wrap32 (WIDTH - xa) else wa
  if wb ≤ 0 then s else
  let ha := if y < 0 then wrap32 (h + y) else h
  let ya := if y < 0 then 0 else y
  let hb := if wrap32 (ya + ha) > HEIGHT then wrap32 (HEIGHT - ya) else ha
  if hb ≤ 0 then s else
  { DispDirtyX1 := if xa < s.DispDirtyX1 then xa else s.DispDirtyX1
    DispDirtyX2 := if wrap32 (xa + wb) > s.DispDirtyX2 then wrap32 (xa + wb) else s.DispDirtyX2
    DispDirtyY1 := if ya < s.DispDirtyY1 then ya else s.DispDirtyY1
    DispDirtyY2 := if wrap32 (ya + hb) > s.DispDirtyY2 then wrap32 (ya + hb) else s.DispDirtyY2 }

/-- Source `DispDirtyPoint`: update dirty area by pixel (check valid range).
The range test is the unsigned comparison `(u32)x < (u32)WIDTH`. -/
def DispDirtyPoint (s : Dirty) (x y : Int) : Dirty :=
  if toU32 x < toU32 WIDTH ∧ toU32 y < toU32 HEIGHT then
    { DispDirtyX1 := if x < s.DispDirtyX1 then x else s.DispDirtyX1
      DispDirtyX2 := if wrap32 (x + 1) > s.DispDirtyX2 then wrap32 (x + 1) else s.DispDirtyX2
      DispDirtyY1 := if y < s.DispDirtyY1 then y else s.DispDirtyY1
      DispDirtyY2 := if wrap32 (y + 1) > s.DispDirtyY2 then wrap32 (y + 1) else s.DispDirtyY2 }
  else s

/-! ## Reference notions used to state the tracker laws -/

/-- The rectangle `(x, y, w, h)` clipped to the screen, as a half-open box
`(max x 0, min (x+w) WIDTH, max y 0, min (y+h) HEIGHT)`; it is empty when an edge pair is
not strictly increasing. -/
def clipRect (x y w h : Int) : Dirty :=
  { DispDirtyX1 := max x 0, DispDirtyX2 := min (x + w) WIDTH
    DispDirtyY1 := max y 0, DispDirtyY2 := min (y + h) HEIGHT }

/-- A half-open box holds at least one pixel. -/
def Dirty.nonEmpty (b : Dirty) : Prop :=
  b.DispDirtyX1 < b.DispDirtyX2 ∧ b.DispDirtyY1 < b.DispDirtyY2

instance (b : Dirty) : Decidable b.nonEmpty := by
  unfold Dirty.nonEmpty
  infer_instance

/-- Edge-wise union of a tracked box with a further box: min of the low edges, max of the
high edges. -/
def Dirty.hull (a b : Dirty) : Dirty :=
  { DispDirtyX1 := min a.DispDirtyX1 b.DispDirtyX1, DispDirtyX2 := max a.DispDirtyX2 b.DispDirtyX2
    DispDirtyY1 := min a.DispDirtyY1 b.DispDirtyY1, DispDirtyY2 := max a.DispDirtyY2 b.DispDirtyY2 }

/-- Smallest box containing two clipped rectangles, either of which may be empty; the
canonical empty box when both are. -/
def boundingUnion (a b : Dirty) : Dirty :=
  if a.nonEmpty then (if b.nonEmpty then a.hull b else a)
  else (if b.nonEmpty then b else DispDirtyNone)

/-- The pixel `(px, py)` lies in the half-open box `b`. -/
def Dirty.mem (b : Dirty) (px py : Int) : Prop :=
  b.DispDirtyX1 ≤ px ∧ px < b.DispDirtyX2 ∧ b.DispDirtyY1 ≤ py ∧ py < b.DispDirtyY2

/-- The pixel `(px, py)` lies in the rectangle `(x, y, w, h)` and on the screen. -/
def inRectOnScreen (x y w h px py : Int) : Prop :=
  (x ≤ px ∧ px < x + w ∧ y ≤ py ∧ py < y + h) ∧ (0 ≤ px ∧ px < WIDTH ∧ 0 ≤ py ∧ py < HEIGHT)

/-! ## Bus signalling -/

/-- The two GPIO pins the transfers drive. -/
inductive Pin
  | DISP_CS_PIN
  | DISP_DC_PIN
deriving DecidableEq, Repr

/-- One observable action on the bus, in program order. -/
inductive BusOp
  | GPIO_Out0 (pin : Pin)
  | GPIO_Out1 (pin : Pin)
  | SPI_Send8 (data : List Int)
  | SPI_Send8DMA (data : List Int)
  | SPI_Write (data : Int)
deriving DecidableEq, Repr

/-- Build options and board constants that `st7789.c` takes from the device configuration. -/
structure Config where
  DISP_OFFSET_X : Int
  DISP_OFFSET_Y : Int
  USE_DISP_DMA : Bool

/-- Macro `CS_ON`: activate chip selection. -/
def CS_ON : List BusOp := [BusOp.GPIO_Out0 Pin.DISP_CS_PIN]

/-- Macro `CS_OFF`: deactivate chip selection. -/
def CS_OFF : List BusOp := [BusOp.GPIO_Out1 Pin.DISP_CS_PIN]

/-- Macro `DC_CMD`: set command mode. -/
def DC_CMD : List BusOp := [BusOp.GPIO_Out0 Pin.DISP_DC_PIN]

/-- Macro `DC_DATA`: set data mode. -/
def DC_DATA : List BusOp := [BusOp.GPIO_Out1 Pin.DISP_DC_PIN]

/-- Opcode: set start and end column of draw window. -/
def ST7789_CASET : Int := 0x2A

/-- Opcode: set start and end row of draw window. -/
def ST7789_RASET : Int := 0x2B

/-- Opcode: start write data to draw window. -/
def ST7789_RAMWR : Int := 0x2C

/-- Opcode: set rotation mode. -/
def ST7789_MADCTL : Int := 0x36

/-- B7: page address order. -/
def ST7789_MADCTL_MY : Int := 0x80

/-- B6: column address order. -/
def ST7789_MADCTL_MX : Int := 0x40

/-- B5: page/column order. -/
def ST7789_MADCTL_MV : Int := 0x20

/-- Source `DispWriteCmd`: write command. -/
def DispWriteCmd (cmd : Int) : List BusOp :=
  CS_ON ++ DC_CMD ++ [BusOp.SPI_Send8 [cmd]] ++ CS_OFF

/-- Source `DispWriteData`: write data to display; `data` is the `len` bytes at the pointer. -/
def DispWriteData (data : List Int) : List BusOp :=
  CS_ON ++ DC_DATA ++ [BusOp.SPI_Send8 data] ++ CS_OFF

/-- Source `DispWriteDataDMA`: write data to display using DMA. -/
def DispWriteDataDMA (data : List Int) : List BusOp :=
  CS_ON ++ DC_DATA ++ [BusOp.SPI_Send8DMA data] ++ CS_OFF

/-- Source `DispWriteCmdData`: write command and data to display. -/
def DispWriteCmdData (cmd : Int) (data : List Int) : List BusOp :=
  CS_ON ++ DC_CMD ++ [BusOp.SPI_Send8 [cmd]] ++ DC_DATA ++ [BusOp.SPI_Send8 data] ++ CS_OFF

/-! ## Rotation -/

/-- Source `RotationTab`: rotation mode for `ST7789_MADCTL`. -/
def RotationTab : List Int := [0x00, 0x60, 0xc0, 0xa0]

/-- Source `DispRotation`: set display rotation.  The table has four entries; an index past
the table reads memory behind it, which the model leaves as 0. -/
def DispRotation (rot : Nat) : List BusOp :=
  DispWriteCmdData ST7789_MADCTL [RotationTab.getD rot 0]

/-! ## Draw window -/

/-- Modelled from the spec: the macro `ENDIAN16` (defined outside `st7789.c`) turns a 16-bit
value into the cell whose memory bytes are the value high byte first ("two 16-bit big-endian
values"), i.e. it exchanges the two low bytes of `k`. -/
def ENDIAN16 (k : Int) : Int := (k / 256) % 256 + (k % 256) * 256

/-- Memory bytes of a `u16` cell holding `v`: low byte, then high byte. -/
def u16Bytes (v : Int) : List Int := [toU16 v % 256, toU16 v / 256]

/-- Source `DispWindow`: set draw window.  The arguments are `u16`; `buf` is sent as its four
memory bytes. -/
def DispWindow (cfg : Config) (x1 x2 y1 y2 : Int) : List BusOp :=
  let cbuf0 := toU16 (ENDIAN16 (wrap32 (x1 + cfg.DISP_OFFSET_X)))
  let cbuf1 := toU16 (ENDIAN16 (wrap32 (wrap32 (x2 - 1) + cfg.DISP_OFFSET_X)))
  let rbuf0 := toU16 (ENDIAN16 (wrap32 (y1 + cfg.DISP_OFFSET_Y)))
  let rbuf1 := toU16 (ENDIAN16 (wrap32 (wrap32 (y2 - 1) + cfg.DISP_OFFSET_Y)))
  DispWriteCmdData ST7789_CASET (u16Bytes cbuf0 ++ u16Bytes cbuf1) ++
    DispWriteCmdData ST7789_RASET (u16Bytes rbuf0 ++ u16Bytes rbuf1) ++
    DispWriteCmd ST7789_RAMWR

/-- The two bytes a big-endian 16-bit field carries for the value `v`, high byte first. -/
def be16 (v : Int) : List Int := [(v % 65536) / 256, (v % 65536) % 256]

/-! ## Frame update -/

/-- The `len` bytes of memory starting at the address of `FrameBuf[s0]`.  Byte `j` belongs to
cell `s0 + j / 2`: its low byte when `j` is even, its high byte when `j` is odd. -/
def FrameBufBytes (fb : Int → Int) (s0 : Int) (len : Int) : List Int :=
  (List.range len.toNat).map fun j =>
    if j % 2 = 0 then toU16 (fb (s0 + ((j / 2 : Nat) : Int))) % 256
    else toU16 (fb (s0 + ((j / 2 : Nat) : Int))) / 256

/-- The row loop of `DispUpdate`: `for (i = ...; i > 0; i--) { write(s0, len); s0 += WIDTH; }`,
with `i` iterations left and the pointer at cell `s0`. -/
def DispUpdateRows (dma : Bool) (fb : Int → Int) (len : Int) : Nat → Int → List BusOp
  | 0, _ => []
  | i + 1, s0 =>
    (if dma then DispWriteDataDMA (FrameBufBytes fb s0 len)
     else DispWriteData (FrameBufBytes fb s0 len)) ++
      DispUpdateRows dma fb len i (s0 + WIDTH)

/-- The bytes sent before the window is set: synchronize external display. -/
def DispSync : List BusOp := CS_OFF ++ DC_CMD ++ [BusOp.SPI_Send8 [0xff]]

/-- Source `DispUpdate`: update - send dirty window to display.  Returns the dirty window
after the call and the bus activity. -/
def DispUpdate (cfg : Config) (fb : Int → Int) (s : Dirty) : Dirty × List BusOp :=
  if s.DispDirtyX1 < s.DispDirtyX2 ∧ s.DispDirtyY1 < s.DispDirtyY2 then
    let win := DispWindow cfg (toU16 s.DispDirtyX1) (toU16 s.DispDirtyX2)
      (toU16 s.DispDirtyY1) (toU16 s.DispDirtyY2)
    let s0 := wrap32 (s.DispDirtyX1 + wrap32 (s.DispDirtyY1 * WIDTH))
    let dma := cfg.USE_DISP_DMA && decide (wrap32 (s.DispDirtyX2 - s.DispDirtyX1) > 20)
    let len := wrap32 (wrap32 (s.DispDirtyX2 - s.DispDirtyX1) * 2)
    let rows := DispUpdateRows dma fb len (wrap32 (s.DispDirtyY2 - s.DispDirtyY1)).toNat s0
    (DispDirtyNone, DispSync ++ win ++ rows)
  else (s, [])

/-- Source `DispUpdateAll`: refresh update all display. -/
def DispUpdateAll (cfg : Config) (fb : Int → Int) (_s : Dirty) : Dirty × List BusOp :=
  DispUpdate cfg fb DispDirtyAll

/-- State of the auto update: the dirty window and `DispAutoUpdateLast`. -/
structure AutoState where
  dirty : Dirty
  DispAutoUpdateLast : Int
deriving DecidableEq, Repr

/-- Source `DispAutoUpdate`: auto update after delta time in [ms] of running program.
`ms` is `u32`; `t1` and `t2` are the `u32` readings of the first and the second `Time()`. -/
def DispAutoUpdate (cfg : Config) (fb : Int → Int) (st : AutoState) (ms t1 t2 : Int) :
    AutoState × List BusOp :=
  let us := toU32 (ms * 1000)
  if toU32 (t1 - st.DispAutoUpdateLast) ≥ us then
    let r := DispUpdate cfg fb st.dirty
    ({ dirty := r.1, DispAutoUpdateLast := t2 }, r.2)
  else (st, [])

/-- Payload bytes of the block sends in a trace, in order. -/
def sentBytes : List BusOp → List Int
  | [] => []
  | BusOp.SPI_Send8 d :: rest => d ++ sentBytes rest
  | BusOp.SPI_Send8DMA d :: rest => d ++ sentBytes rest
  | _ :: rest => sentBytes rest

/-! ## Direct text output -/

/-- Values of the locals `len`, `w1`, `w2`, `w` of `DispDrawText` when it opens the window. -/
structure TextGeom where
  len : Int
  w1 : Int
  w2 : Int
  w : Int
deriving DecidableEq, Repr

/-- Source `DispDrawText`, the clamping of text length and margins (its first part, up to
`w = w1 + len*w0 + w2`).  `len` is `StrLen(text)`, `w0` is `DrawFontWidth`; `/` on `int`
truncates. -/
def DispDrawTextGeom (len w0 w1 w2 : Int) : TextGeom :=
  let w := wrap32 (len * w0)
  let lena := if w > WIDTH then Int.tdiv WIDTH w0 else len
  let wa := wrap32 (WIDTH - wrap32 (lena * w0))
  let w1a := if w1 < 0 then 0 else w1
  let w1b := if w1a > wa then wa else w1a
  let wb := wrap32 (wa - w1b)
  let w2a := if w2 < 0 then 0 else w2
  let w2b := if w2a > wb then wb else w2a
  { len := lena, w1 := w1b, w2 := w2b, w := wrap32 (wrap32 (w1b + wrap32 (lena * w0)) + w2b) }

/-- Font globals of the drawing library that `DispDrawText` reads: `DrawFontWidth`,
`DrawFontHeight` and the bytes at `pDrawFont` (256 bytes per glyph line). -/
structure Font where
  DrawFontWidth : Int
  DrawFontHeight : Int
  pDrawFont : Int → Int

/-- Source `DispStartImg`: start sending image data to display window. -/
def DispStartImg (cfg : Config) (x1 x2 y1 y2 : Int) : List BusOp :=
  CS_OFF ++ DC_CMD ++ [BusOp.SPI_Send8 [0xff]] ++ DispWindow cfg x1 x2 y1 y2 ++ CS_ON ++ DC_DATA

/-- Source `DispSendImg2`: send one word of image data, low byte then high byte. -/
def DispSendImg2 (data : Int) : List BusOp :=
  [BusOp.SPI_Write (toU8 data), BusOp.SPI_Write (toU8 (toU16 data / 256))]

/-- Source `DispStopImg`: stop sending image data. -/
def DispStopImg : List BusOp := CS_OFF

/-- Margin loop of `DispDrawText`: `for (i = w; i > 0; i--) DispSendImg2(bgcol);`. -/
def DispDrawTextMargin (bgcol : Int) : Nat → List BusOp
  | 0 => []
  | i + 1 => DispSendImg2 bgcol ++ DispDrawTextMargin bgcol i

/-- Pixel loop of `DispDrawText` over one glyph line `ch` (`u8`), `j` pixels left:
bit 7 selects the colour, then `ch <<= 1`. -/
def DispDrawTextPixels (col bgcol : Int) : Nat → Int → List BusOp
  | 0, _ => []
  | j + 1, ch =>
    DispSendImg2 (if (ch / 128) % 2 ≠ 0 then col else bgcol) ++
      DispDrawTextPixels col bgcol j (toU8 (ch * 2))

/-- Character loop of `DispDrawText`: `i` characters left, `t` the rest of the text (a read
at the end of the text yields the terminating NUL); `fnt` is the current glyph line table. -/
def DispDrawTextChars (fnt : Int → Int) (w0 col bgcol : Int) : Nat → List Int → List BusOp
  | 0, _ => []
  | i + 1, t =>
    DispDrawTextPixels col bgcol w0.toNat (toU8 (fnt (toU8 (t.headD 0)))) ++
      DispDrawTextChars fnt w0 col bgcol i t.tail

/-- Line loop of `DispDrawText`: `h` lines left, `fnt` the offset of the current glyph line
table in the font (`fnt += 256` per line). -/
def DispDrawTextLines (font : Font) (text : List Int) (g : TextGeom) (col bgcol : Int) :
    Nat → Int → List BusOp
  | 0, _ => []
  | h + 1, fnt =>
    DispDrawTextMargin bgcol g.w1.toNat ++
      DispDrawTextChars (fun c => font.pDrawFont (fnt + c)) font.DrawFontWidth col bgcol
        g.len.toNat text ++
      DispDrawTextMargin bgcol g.w2.toNat ++
      DispDrawTextLines font text g col bgcol h (fnt + 256)

/-- Source `DispDrawText`: direct draw text to display with current selected font.  `text` is
the characters of the string before its terminating NUL, so `StrLen(text)` is its length. -/
def DispDrawText (cfg : Config) (font : Font) (text : List Int) (x y w1 w2 col bgcol : Int) :
    List BusOp :=
  let g := DispDrawTextGeom text.length font.DrawFontWidth w1 w2
  let h := font.DrawFontHeight
  DispStartImg cfg (toU16 x) (toU16 (wrap32 (x + g.w))) (toU16 y) (toU16 (wrap32 (y + h))) ++
    DispDrawTextLines font text g col bgcol h.toNat 0 ++
    DispStopImg

/-- Source `DispDrawTextRow`: direct draw text row to display with current selected font. -/
def DispDrawTextRow (cfg : Config) (font : Font) (text : List Int) (x y col bgcol : Int) :
    List BusOp :=
  DispDrawText cfg font text 0 y x
    (wrap32 (wrap32 (WIDTH - x) - wrap32 ((text.length : Int) * font.DrawFontWidth))) col bgcol

/-! ## Sequences of tracker calls, and the cells a flush reads -/

/-- One call of a function of `st7789.c` that writes the dirty window, with its arguments. -/
inductive TrackerOp
  | DispDirtyAll
  | DispDirtyNone
  | DispDirtyRect (x y w h : Int)
  | DispDirtyPoint (x y : Int)
  | DispUpdate
deriving DecidableEq, Repr

/-- The arguments of the call are values of the C type `int`. -/
def opArgsInt : TrackerOp → Prop
  | TrackerOp.DispDirtyRect x y w h => IsInt x ∧ IsInt y ∧ IsInt w ∧ IsInt h
  | TrackerOp.DispDirtyPoint x y => IsInt x ∧ IsInt y
  | _ => True

/-- No `int` addition of the call overflows: for `DispDirtyRect` the far edges `x + w` and
`y + h` are representable (the other calls cannot overflow on `int` arguments). -/
def opNoOverflow : TrackerOp → Prop
  | TrackerOp.DispDirtyRect x y w h => IsInt (x + w) ∧ IsInt (y + h)
  | _ => True

/-- The dirty window after one call. -/
def stepOp (cfg : Config) (fb : Int → Int) (s : Dirty) : TrackerOp → Dirty
  | TrackerOp.DispDirtyAll => DispDirtyAll
  | TrackerOp.DispDirtyNone => DispDirtyNone
  | TrackerOp.DispDirtyRect x y w h => DispDirtyRect s x y w h
  | TrackerOp.DispDirtyPoint x y => DispDirtyPoint s x y
  | TrackerOp.DispUpdate => (DispUpdate cfg fb s).1

/-- The dirty window after a sequence of calls, first call first. -/
def runOps (cfg : Config) (fb : Int → Int) (s : Dirty) (ops : List TrackerOp) : Dirty :=
  ops.foldl (stepOp cfg fb) s

/-- Cell indices of `FrameBuf` under the `len` bytes starting at the address of `FrameBuf[s0]`,
in the order of the bytes (see `FrameBufBytes`). -/
def FrameBufCells (s0 : Int) (len : Int) : List Int :=
  (List.range len.toNat).map fun j => s0 + ((j / 2 : Nat) : Int)

/-- Cell indices read by the row loop of `DispUpdate` (see `DispUpdateRows`). -/
def DispUpdateRowsCells (len : Int) : Nat → Int → List Int
  | 0, _ => []
  | i + 1, s0 => FrameBufCells s0 len ++ DispUpdateRowsCells len i (s0 + WIDTH)

/-- Cell indices of `FrameBuf` that `DispUpdate` reads in the dirty window `s`. -/
def DispUpdateCells (s : Dirty) : List Int :=
  if s.DispDirtyX1 < s.DispDirtyX2 ∧ s.DispDirtyY1 < s.DispDirtyY2 then
    DispUpdateRowsCells (wrap32 (wrap32 (s.DispDirtyX2 - s.DispDirtyX1) * 2))
      (wrap32 (s.DispDirtyY2 - s.DispDirtyY1)).toNat
      (wrap32 (s.DispDirtyX1 + wrap32 (s.DispDirtyY1 * WIDTH)))
  else []

/-- All four edges of the window lie on the screen border or inside:
`0 ≤ x1, x2 ≤ WIDTH` and `0 ≤ y1, y2 ≤ HEIGHT`. -/
def Dirty.edgesOnScreen (s : Dirty) : Prop :=
  (0 ≤ s.DispDirtyX1 ∧ s.DispDirtyX1 ≤ WIDTH) ∧ (0 ≤ s.DispDirtyX2 ∧ s.DispDirtyX2 ≤ WIDTH) ∧
    (0 ≤ s.DispDirtyY1 ∧ s.DispDirtyY1 ≤ HEIGHT) ∧ (0 ≤ s.DispDirtyY2 ∧ s.DispDirtyY2 ≤ HEIGHT)

/-- The window is the canonical empty form or a non-empty box within the screen. -/
def Dirty.emptyOrBox (s : Dirty) : Prop :=
  s = DispDirtyNone ∨
    ((0 ≤ s.DispDirtyX1 ∧ s.DispDirtyX1 < s.DispDirtyX2 ∧ s.DispDirtyX2 ≤ WIDTH) ∧
      (0 ≤ s.DispDirtyY1 ∧ s.DispDirtyY1 < s.DispDirtyY2 ∧ s.DispDirtyY2 ≤ HEIGHT))

instance (op : TrackerOp) : Decidable (opArgsInt op) := by
  cases op <;> unfold opArgsInt <;> infer_instance

instance (op : TrackerOp) : Decidable (opNoOverflow op) := by
  cases op <;> unfold opNoOverflow <;> infer_instance

instance (s : Dirty) : Decidable s.edgesOnScreen := by
  unfold Dirty.edgesOnScreen
  infer_instance

instance (s : Dirty) : Decidable s.emptyOrBox := by
  unfold Dirty.emptyOrBox
  infer_instance

/-- One data transfer of the row loop of `DispUpdate`: by DMA or by the CPU. -/
def DispUpdateWrite (dma : Bool) (data : List Int) : List BusOp :=
  if dma then DispWriteDataDMA data else DispWriteData data

/-! ## Tracker lemmas -/

theorem wrap32_of_isInt (v : Int) (h : IsInt v) : wrap32 v = v := by
  unfold IsInt at h
  unfold wrap32
  omega

/-- One axis of the clipping in `DispDirtyRect`: with `x` and `x + w` representable, the
clamped origin is `max x 0`, and the clamped length is positive exactly when the clipped
interval is non-empty, in which case the far edge is `min (x + w) W`. -/
theorem clipAxis (x w W xa wa wb : Int) (hW : 0 ≤ W ∧ W ≤ 65535)
    (hx : IsInt x) (hxw : IsInt (x + w))
    (hxa : (if x < 0 then (0 : Int) else x) = xa)
    (hwa : (if x < 0 then wrap32 (w + x) else w) = wa)
    (hwb : (if wrap32 (xa + wa) > W then wrap32 (W - xa) else wa) = wb) :
    xa = max x 0 ∧ (wb ≤ 0 ↔ ¬ max x 0 < min (x + w) W) ∧
      (0 < wb → wrap32 (xa + wb) = min (x + w) W) := by
  unfold IsInt at hx hxw
  unfold wrap32 at *
  subst hxa hwa hwb
  split_ifs <;> omega

/-- With representable far edges, `DispDirtyRect` merges the clipped rectangle edge-wise, or
does nothing when the clipped rectangle is empty. -/
theorem DispDirtyRect_eq (s : Dirty) (x y w h : Int)
    (hx : IsInt x) (hy : IsInt y) (hxw : IsInt (x + w)) (hyh : IsInt (y + h)) :
    DispDirtyRect s x y w h =
      if (clipRect x y w h).nonEmpty then s.hull (clipRect x y w h) else s := by
  simp only [DispDirtyRect, clipRect, Dirty.nonEmpty, Dirty.hull]
  generalize hxa : (if x < 0 then (0 : Int) else x) = xa
  generalize hwa : (if x < 0 then wrap32 (w + x) else w) = wa
  generalize hwb : (if wrap32 (xa + wa) > WIDTH then wrap32 (WIDTH - xa) else wa) = wb
  generalize hya : (if y < 0 then (0 : Int) else y) = ya
  generalize hha : (if y < 0 then wrap32 (h + y) else h) = ha
  generalize hhb : (if wrap32 (ya + ha) > HEIGHT then wrap32 (HEIGHT - ya) else ha) = hb
  obtain ⟨ex, nx, fx⟩ := clipAxis x w WIDTH xa wa wb (by decide) hx hxw hxa hwa hwb
  obtain ⟨ey, ny, fy⟩ := clipAxis y h HEIGHT ya ha hb (by decide) hy hyh hya hha hhb
  by_cases cx : wb ≤ 0
  · have : ¬ max x 0 < min (x + w) WIDTH := nx.mp cx
    simp [cx, this]
  · have px : max x 0 < min (x + w) WIDTH := by
      by_contra hc
      exact cx (nx.mpr hc)
    by_cases cy : hb ≤ 0
    · have : ¬ max y 0 < min (y + h) HEIGHT := ny.mp cy
      simp [cx, cy, this]
    · have py : max y 0 < min (y + h) HEIGHT := by
        by_contra hc
        exact cy (ny.mpr hc)
      rw [fx (by omega), fy (by omega), ex, ey]
      simp only [cx, cy, px, py, if_false, and_self, if_true, Dirty.mk.injEq]
      refine ⟨?_, ?_, ?_, ?_⟩ <;> split_ifs <;> omega

/-- Whatever its arguments, `DispDirtyRect` either leaves the window alone or merges one box
that depends on the arguments only. -/
theorem DispDirtyRect_form (x y w h : Int) :
    ∃ (c : Bool) (b : Dirty), ∀ s : Dirty,
      DispDirtyRect s x y w h = if c = true then s.hull b else s := by
  simp only [DispDirtyRect, Dirty.hull]
  generalize (if x < 0 then (0 : Int) else x) = xa
  generalize (if x < 0 then wrap32 (w + x) else w) = wa
  generalize (if wrap32 (xa + wa) > WIDTH then wrap32 (WIDTH - xa) else wa) = wb
  generalize (if y < 0 then (0 : Int) else y) = ya
  generalize (if y < 0 then wrap32 (h + y) else h) = ha
  generalize (if wrap32 (ya + ha) > HEIGHT then wrap32 (HEIGHT - ya) else ha) = hb
  generalize wrap32 (xa + wb) = xb
  generalize wrap32 (ya + hb) = yb
  by_cases cx : wb ≤ 0
  · exact ⟨false, DispDirtyNone, fun s => by simp [cx]⟩
  · by_cases cy : hb ≤ 0
    · exact ⟨false, DispDirtyNone, fun s => by simp [cx, cy]⟩
    · refine ⟨true, ⟨xa, xb, ya, yb⟩, fun s => ?_⟩
      simp only [cx, cy, if_false, if_true, Dirty.mk.injEq]
      refine ⟨?_, ?_, ?_, ?_⟩ <;> split_ifs <;> omega

theorem hull_right_comm (s a b : Dirty) : (s.hull a).hull b = (s.hull b).hull a := by
  simp only [Dirty.hull, Dirty.mk.injEq]
  refine ⟨?_, ?_, ?_, ?_⟩ <;> omega

/-- Two `DispDirtyRect` calls commute, for every window and all arguments. -/
theorem DispDirtyRect_comm (s : Dirty) (x1 y1 w1 h1 x2 y2 w2 h2 : Int) :
    DispDirtyRect (DispDirtyRect s x1 y1 w1 h1) x2 y2 w2 h2 =
      DispDirtyRect (DispDirtyRect s x2 y2 w2 h2) x1 y1 w1 h1 := by
  obtain ⟨c1, b1, e1⟩ := DispDirtyRect_form x1 y1 w1 h1
  obtain ⟨c2, b2, e2⟩ := DispDirtyRect_form x2 y2 w2 h2
  simp only [e1, e2]
  cases c1 <;> cases c2 <;> simp [hull_right_comm]

/-- Merging a non-empty clipped rectangle into the cleared window gives that rectangle. -/
theorem hull_none_clip (x y w h : Int) (hne : (clipRect x y w h).nonEmpty) :
    DispDirtyNone.hull (clipRect x y w h) = clipRect x y w h := by
  simp only [clipRect, Dirty.nonEmpty, WIDTH, HEIGHT] at hne
  simp only [clipRect, Dirty.hull, DispDirtyNone, WIDTH, HEIGHT, Dirty.mk.injEq]
  omega

/-- Marking two rectangles with representable far edges on the cleared window leaves the
edge-wise bounding box of the two clipped rectangles. -/
theorem DispDirtyRect_two (x1 y1 w1 h1 x2 y2 w2 h2 : Int)
    (hx1 : IsInt x1) (hy1 : IsInt y1) (hxw1 : IsInt (x1 + w1)) (hyh1 : IsInt (y1 + h1))
    (hx2 : IsInt x2) (hy2 : IsInt y2) (hxw2 : IsInt (x2 + w2)) (hyh2 : IsInt (y2 + h2)) :
    DispDirtyRect (DispDirtyRect DispDirtyNone x1 y1 w1 h1) x2 y2 w2 h2 =
      boundingUnion (clipRect x1 y1 w1 h1) (clipRect x2 y2 w2 h2) := by
  rw [DispDirtyRect_eq _ x2 y2 w2 h2 hx2 hy2 hxw2 hyh2,
    DispDirtyRect_eq _ x1 y1 w1 h1 hx1 hy1 hxw1 hyh1]
  unfold boundingUnion
  by_cases c1 : (clipRect x1 y1 w1 h1).nonEmpty <;>
    by_cases c2 : (clipRect x2 y2 w2 h2).nonEmpty <;>
    simp only [c1, c2, if_true, if_false]
  · rw [hull_none_clip x1 y1 w1 h1 c1]
  · exact hull_none_clip x1 y1 w1 h1 c1
  · exact hull_none_clip x2 y2 w2 h2 c2

/-- An on-screen pixel of a rectangle lies in the clipped rectangle. -/
theorem inRect_mem_clip (x y w h px py : Int) (hp : inRectOnScreen x y w h px py) :
    (clipRect x y w h).mem px py := by
  simp only [inRectOnScreen, WIDTH, HEIGHT] at hp
  simp only [clipRect, Dirty.mem, WIDTH, HEIGHT]
  omega

theorem boundingUnion_mem_left (a c : Dirty) (px py : Int) (hp : a.mem px py) :
    (boundingUnion a c).mem px py := by
  have ha : a.nonEmpty := by
    simp only [Dirty.mem] at hp
    simp only [Dirty.nonEmpty]
    omega
  unfold boundingUnion
  by_cases hc : c.nonEmpty
  · simp only [ha, hc, if_true, Dirty.hull, Dirty.mem] at hp ⊢
    omega
  · simpa only [ha, hc, if_true, if_false] using hp

theorem boundingUnion_mem_right (a c : Dirty) (px py : Int) (hp : c.mem px py) :
    (boundingUnion a c).mem px py := by
  have hc : c.nonEmpty := by
    simp only [Dirty.mem] at hp
    simp only [Dirty.nonEmpty]
    omega
  unfold boundingUnion
  by_cases ha : a.nonEmpty
  · simp only [ha, hc, if_true, Dirty.hull, Dirty.mem] at hp ⊢
    omega
  · simpa only [ha, hc, if_true, if_false] using hp

/-- The bounding union contains every on-screen pixel of both rectangles. -/
theorem boundingUnion_contains (x1 y1 w1 h1 x2 y2 w2 h2 px py : Int)
    (hp : inRectOnScreen x1 y1 w1 h1 px py ∨ inRectOnScreen x2 y2 w2 h2 px py) :
    (boundingUnion (clipRect x1 y1 w1 h1) (clipRect x2 y2 w2 h2)).mem px py := by
  rcases hp with hp | hp
  · exact boundingUnion_mem_left _ _ _ _ (inRect_mem_clip _ _ _ _ _ _ hp)
  · exact boundingUnion_mem_right _ _ _ _ (inRect_mem_clip _ _ _ _ _ _ hp)

/-- A non-empty clipped rectangle has its two extreme corner pixels on the screen. -/
theorem clipRect_corners (x y w h : Int) (hne : (clipRect x y w h).nonEmpty) :
    inRectOnScreen x y w h (clipRect x y w h).DispDirtyX1 (clipRect x y w h).DispDirtyY1 ∧
      inRectOnScreen x y w h ((clipRect x y w h).DispDirtyX2 - 1)
        ((clipRect x y w h).DispDirtyY2 - 1) := by
  simp only [clipRect, Dirty.nonEmpty, WIDTH, HEIGHT] at hne
  simp only [inRectOnScreen, clipRect, WIDTH, HEIGHT]
  omega

/-- A box that contains the two extreme corner pixels of each non-empty one of `a`, `c`
contains their bounding union. -/
theorem boundingUnion_least_box (a c b : Dirty)
    (ka : a.nonEmpty → b.mem a.DispDirtyX1 a.DispDirtyY1 ∧
      b.mem (a.DispDirtyX2 - 1) (a.DispDirtyY2 - 1))
    (kc : c.nonEmpty → b.mem c.DispDirtyX1 c.DispDirtyY1 ∧
      b.mem (c.DispDirtyX2 - 1) (c.DispDirtyY2 - 1))
    (px py : Int) (hp : (boundingUnion a c).mem px py) : b.mem px py := by
  unfold boundingUnion at hp
  split_ifs at hp with c1 c2 c2
  · have h1 := ka c1
    have h2 := kc c2
    simp only [Dirty.hull, Dirty.mem] at hp h1 h2 ⊢
    omega
  · have h1 := ka c1
    simp only [Dirty.mem] at hp h1 ⊢
    omega
  · have h2 := kc c2
    simp only [Dirty.mem] at hp h2 ⊢
    omega
  · simp only [DispDirtyNone, Dirty.mem, WIDTH, HEIGHT] at hp
    omega

/-- Every box that contains the on-screen pixels of both rectangles contains the bounding
union. -/
theorem boundingUnion_least (x1 y1 w1 h1 x2 y2 w2 h2 : Int) (b : Dirty)
    (hb : ∀ px py : Int,
      inRectOnScreen x1 y1 w1 h1 px py ∨ inRectOnScreen x2 y2 w2 h2 px py → b.mem px py)
    (px py : Int)
    (hp : (boundingUnion (clipRect x1 y1 w1 h1) (clipRect x2 y2 w2 h2)).mem px py) :
    b.mem px py :=
  boundingUnion_least_box _ _ b
    (fun hne => ⟨hb _ _ (Or.inl (clipRect_corners x1 y1 w1 h1 hne).1),
      hb _ _ (Or.inl (clipRect_corners x1 y1 w1 h1 hne).2)⟩)
    (fun hne => ⟨hb _ _ (Or.inr (clipRect_corners x2 y2 w2 h2 hne).1),
      hb _ _ (Or.inr (clipRect_corners x2 y2 w2 h2 hne).2)⟩)
    px py hp

/-- With no on-screen pixel in either rectangle the bounding union is the canonical empty
window. -/
theorem boundingUnion_empty (x1 y1 w1 h1 x2 y2 w2 h2 : Int)
    (hno : ∀ px py : Int,
      ¬ inRectOnScreen x1 y1 w1 h1 px py ∧ ¬ inRectOnScreen x2 y2 w2 h2 px py) :
    boundingUnion (clipRect x1 y1 w1 h1) (clipRect x2 y2 w2 h2) = DispDirtyNone := by
  have n1 : ¬ (clipRect x1 y1 w1 h1).nonEmpty := fun hne =>
    (hno _ _).1 (clipRect_corners x1 y1 w1 h1 hne).1
  have n2 : ¬ (clipRect x2 y2 w2 h2).nonEmpty := fun hne =>
    (hno _ _).2 (clipRect_corners x2 y2 w2 h2 hne).1
  simp [boundingUnion, n1, n2]

/-- On a 32-bit `int` the unsigned test `(u32)v < (u32)W` is the range test `0 ≤ v < W`. -/
theorem toU32_lt_iff (v W : Int) (hv : IsInt v) (hW : 0 ≤ W ∧ W ≤ 65535) :
    toU32 v < toU32 W ↔ 0 ≤ v ∧ v < W := by
  unfold IsInt at hv
  unfold toU32
  omega

/-! ## C1: bounding-box union law -/

/-- C1 (amended): starting from the cleared tracker (`DispDirtyNone`), for all rectangles
R1 = (x1,y1,w1,h1) and R2 = (x2,y2,w2,h2) whose origins and far edges `x+w`, `y+h` are
representable 32-bit `int`s, the tracked rectangle after `DispDirtyRect` R1 then R2 is the
smallest box containing the on-screen pixels of R1 ∪ R2: it is the edge-wise bounding union of
the two clipped rectangles, it contains every on-screen pixel of R1 and R2, every box containing
those pixels contains it, and it is the canonical empty window when neither rectangle has an
on-screen pixel.  The final tracker state does not depend on the marking order. -/
theorem DispDirtyRect_bounding_union (x1 y1 w1 h1 x2 y2 w2 h2 : Int)
    (hx1 : IsInt x1) (hy1 : IsInt y1) (hxw1 : IsInt (x1 + w1)) (hyh1 : IsInt (y1 + h1))
    (hx2 : IsInt x2) (hy2 : IsInt y2) (hxw2 : IsInt (x2 + w2)) (hyh2 : IsInt (y2 + h2)) :
    DispDirtyRect (DispDirtyRect DispDirtyNone x1 y1 w1 h1) x2 y2 w2 h2 =
        boundingUnion (clipRect x1 y1 w1 h1) (clipRect x2 y2 w2 h2) ∧
      (∀ px py : Int,
        inRectOnScreen x1 y1 w1 h1 px py ∨ inRectOnScreen x2 y2 w2 h2 px py →
          (DispDirtyRect (DispDirtyRect DispDirtyNone x1 y1 w1 h1) x2 y2 w2 h2).mem px py) ∧
      (∀ b : Dirty,
        (∀ px py : Int,
          inRectOnScreen x1 y1 w1 h1 px py ∨ inRectOnScreen x2 y2 w2 h2 px py → b.mem px py) →
        ∀ px py : Int,
          (DispDirtyRect (DispDirtyRect DispDirtyNone x1 y1 w1 h1) x2 y2 w2 h2).mem px py →
            b.mem px py) ∧
      ((∀ px py : Int,
          ¬ inRectOnScreen x1 y1 w1 h1 px py ∧ ¬ inRectOnScreen x2 y2 w2 h2 px py) →
        DispDirtyRect (DispDirtyRect DispDirtyNone x1 y1 w1 h1) x2 y2 w2 h2 = DispDirtyNone) ∧
      DispDirtyRect (DispDirtyRect DispDirtyNone x1 y1 w1 h1) x2 y2 w2 h2 =
        DispDirtyRect (DispDirtyRect DispDirtyNone x2 y2 w2 h2) x1 y1 w1 h1 := by
  have e := DispDirtyRect_two x1 y1 w1 h1 x2 y2 w2 h2 hx1 hy1 hxw1 hyh1 hx2 hy2 hxw2 hyh2
  refine ⟨e, ?_, ?_, ?_, DispDirtyRect_comm _ _ _ _ _ _ _ _ _⟩
  · intro px py hp
    rw [e]
    exact boundingUnion_contains _ _ _ _ _ _ _ _ _ _ hp
  · intro b hb px py hp
    rw [e] at hp
    exact boundingUnion_least _ _ _ _ _ _ _ _ b hb px py hp
  · intro hno
    rw [e]
    exact boundingUnion_empty _ _ _ _ _ _ _ _ hno

/-- Witness for C1: R1 = (-5,10,20,30) and R2 = (300,200,50,100) leave the box
(0,320,10,240). -/
theorem DispDirtyRect_bounding_union_witness :
    DispDirtyRect (DispDirtyRect DispDirtyNone (-5) 10 20 30) 300 200 50 100 =
      { DispDirtyX1 := 0, DispDirtyX2 := 320, DispDirtyY1 := 10, DispDirtyY2 := 240 } :=
  (DispDirtyRect_bounding_union (-5) 10 20 30 300 200 50 100
    (by decide) (by decide) (by decide) (by decide)
    (by decide) (by decide) (by decide) (by decide)).1.trans (by decide)

/-- Counterexample to C1 as stated: R1 = (0, 2147483647, 1, 1) and R2 = (400, 0, 5, 5) have no
pixel on the screen, yet after marking both on the cleared tracker the window is
(0, 1, 240, 0), not the canonical empty window: in R1, `y + h` overflows the 32-bit `int` and
wraps to -2147483648, so the test `y + h > HEIGHT` does not clip the rectangle away. -/
theorem DispDirtyRect_bounding_union_counterexample :
    (∀ px py : Int, ¬ inRectOnScreen 0 2147483647 1 1 px py ∧
        ¬ inRectOnScreen 400 0 5 5 px py) ∧
      DispDirtyRect (DispDirtyRect DispDirtyNone 0 2147483647 1 1) 400 0 5 5 =
        { DispDirtyX1 := 0, DispDirtyX2 := 1, DispDirtyY1 := 240, DispDirtyY2 := 0 } ∧
      DispDirtyRect (DispDirtyRect DispDirtyNone 0 2147483647 1 1) 400 0 5 5 ≠
        boundingUnion (clipRect 0 2147483647 1 1) (clipRect 400 0 5 5) := by
  refine ⟨?_, by decide, by decide⟩
  intro px py
  simp only [inRectOnScreen, WIDTH, HEIGHT]
  omega

/-! ## C2: clipping -/

/-- C2 (amended): for every tracker state and every rectangle (x,y,w,h) whose origin and far
edges `x+w`, `y+h` are representable 32-bit `int`s: if the rectangle has no pixel on the screen
[0,WIDTH) x [0,HEIGHT) (it lies outside, or its width or height is not positive),
`DispDirtyRect` leaves all four tracker integers unchanged; if it has a pixel on the screen,
marking it on the cleared tracker yields x1 = max(x,0), x2 = min(x+w,WIDTH), y1 = max(y,0),
y2 = min(y+h,HEIGHT). -/
theorem DispDirtyRect_clipping (s : Dirty) (x y w h : Int)
    (hx : IsInt x) (hy : IsInt y) (hxw : IsInt (x + w)) (hyh : IsInt (y + h)) :
    ((∀ px py : Int, ¬ inRectOnScreen x y w h px py) → DispDirtyRect s x y w h = s) ∧
      ((∃ px py : Int, inRectOnScreen x y w h px py) →
        DispDirtyRect DispDirtyNone x y w h =
          { DispDirtyX1 := max x 0, DispDirtyX2 := min (x + w) WIDTH
            DispDirtyY1 := max y 0, DispDirtyY2 := min (y + h) HEIGHT }) := by
  constructor
  · intro hno
    have n : ¬ (clipRect x y w h).nonEmpty := fun hne =>
      hno _ _ (clipRect_corners x y w h hne).1
    rw [DispDirtyRect_eq s x y w h hx hy hxw hyh, if_neg n]
  · rintro ⟨px, py, hp⟩
    have hm := inRect_mem_clip x y w h px py hp
    have hne : (clipRect x y w h).nonEmpty := by
      simp only [Dirty.mem] at hm
      simp only [Dirty.nonEmpty]
      omega
    rw [DispDirtyRect_eq _ x y w h hx hy hxw hyh, if_pos hne, hull_none_clip x y w h hne]
    rfl

/-- Witness for C2: (400,0,5,5) lies right of the screen and changes nothing; (-5,10,20,30)
overlaps the screen and leaves (0,15,10,40) on the cleared tracker. -/
theorem DispDirtyRect_clipping_witness :
    DispDirtyRect { DispDirtyX1 := 3, DispDirtyX2 := 7, DispDirtyY1 := 1, DispDirtyY2 := 2 }
        400 0 5 5 =
        { DispDirtyX1 := 3, DispDirtyX2 := 7, DispDirtyY1 := 1, DispDirtyY2 := 2 } ∧
      DispDirtyRect DispDirtyNone (-5) 10 20 30 =
        { DispDirtyX1 := max (-5) 0, DispDirtyX2 := min (-5 + 20) WIDTH
          DispDirtyY1 := max 10 0, DispDirtyY2 := min (10 + 30) HEIGHT } :=
  ⟨(DispDirtyRect_clipping _ 400 0 5 5 (by decide) (by decide) (by decide) (by decide)).1
      (fun px py hp => by
        simp only [inRectOnScreen, WIDTH, HEIGHT] at hp
        omega),
    (DispDirtyRect_clipping DispDirtyNone (-5) 10 20 30
      (by decide) (by decide) (by decide) (by decide)).2
      ⟨0, 10, by simp only [inRectOnScreen, WIDTH, HEIGHT]; omega⟩⟩

/-- Counterexample to C2 as stated: the rectangle (-1, 0, -2147483648, 1) has a negative width
and no pixel on the screen, yet `DispDirtyRect` turns the cleared tracker into (0, 320, 0, 1):
`w += x` overflows the 32-bit `int` and wraps to 2147483647, which is then clamped to
`WIDTH`. -/
theorem DispDirtyRect_clipping_counterexample :
    (-2147483648 : Int) ≤ 0 ∧
      (∀ px py : Int, ¬ inRectOnScreen (-1) 0 (-2147483648) 1 px py) ∧
      DispDirtyRect DispDirtyNone (-1) 0 (-2147483648) 1 =
        { DispDirtyX1 := 0, DispDirtyX2 := 320, DispDirtyY1 := 0, DispDirtyY2 := 1 } ∧
      DispDirtyRect DispDirtyNone (-1) 0 (-2147483648) 1 ≠ DispDirtyNone := by
  refine ⟨by decide, ?_, by decide, by decide⟩
  intro px py
  simp only [inRectOnScreen, WIDTH, HEIGHT]
  omega

/-! ## C8: `DispDirtyPoint` against `DispDirtyRect` -/

/-- C8 (amended): for every tracker state and all 32-bit `int`s x, y (negative ones included)
other than `INT_MAX` = 2147483647, `DispDirtyPoint(x,y)` leaves the tracker unchanged when
(x,y) is outside [0,WIDTH) x [0,HEIGHT), and it produces exactly the tracker state of
`DispDirtyRect(x,y,1,1)`. -/
theorem DispDirtyPoint_eq_DispDirtyRect (s : Dirty) (x y : Int)
    (hx : IsInt x) (hy : IsInt y) (hxm : x < 2147483647) (hym : y < 2147483647) :
    (¬ ((0 ≤ x ∧ x < WIDTH) ∧ (0 ≤ y ∧ y < HEIGHT)) → DispDirtyPoint s x y = s) ∧
      DispDirtyPoint s x y = DispDirtyRect s x y 1 1 := by
  have tx := toU32_lt_iff x WIDTH hx (by decide)
  have ty := toU32_lt_iff y HEIGHT hy (by decide)
  have hR := DispDirtyRect_eq s x y 1 1 hx hy
    (by unfold IsInt at *; omega) (by unfold IsInt at *; omega)
  have hc : (clipRect x y 1 1).nonEmpty ↔ ((0 ≤ x ∧ x < WIDTH) ∧ (0 ≤ y ∧ y < HEIGHT)) := by
    simp only [clipRect, Dirty.nonEmpty, WIDTH, HEIGHT]
    omega
  unfold IsInt at hx hy
  constructor
  · intro hout
    unfold DispDirtyPoint
    rw [if_neg]
    rw [tx, ty]
    exact hout
  · rw [hR]
    unfold DispDirtyPoint
    by_cases hin : (0 ≤ x ∧ x < WIDTH) ∧ (0 ≤ y ∧ y < HEIGHT)
    · rw [if_pos (by rw [tx, ty]; exact hin), if_pos (hc.mpr hin)]
      simp only [WIDTH, HEIGHT] at hin
      simp only [clipRect, Dirty.hull, wrap32, WIDTH, HEIGHT, Dirty.mk.injEq]
      refine ⟨?_, ?_, ?_, ?_⟩ <;> split_ifs <;> omega
    · rw [if_neg (by rw [tx, ty]; exact hin), if_neg (fun hne => hin (hc.mp hne))]

/-- Witness for C8: the point (-3, 7) is off-screen and changes nothing, as does the
rectangle (-3, 7, 1, 1). -/
theorem DispDirtyPoint_eq_DispDirtyRect_witness :
    DispDirtyPoint DispDirtyAll (-3) 7 = DispDirtyAll ∧
      DispDirtyPoint DispDirtyAll (-3) 7 = DispDirtyRect DispDirtyAll (-3) 7 1 1 :=
  ⟨(DispDirtyPoint_eq_DispDirtyRect DispDirtyAll (-3) 7
      (by decide) (by decide) (by decide) (by decide)).1 (by decide),
    (DispDirtyPoint_eq_DispDirtyRect DispDirtyAll (-3) 7
      (by decide) (by decide) (by decide) (by decide)).2⟩

/-- Counterexample to C8 as stated: at x = 2147483647, y = 0 `DispDirtyPoint` leaves the
cleared tracker unchanged, while `DispDirtyRect(x,y,1,1)` turns it into (320, 0, 0, 1): there
`x + w` overflows the 32-bit `int` and wraps to -2147483648, so the rectangle is not clipped
away and its row is merged. -/
theorem DispDirtyPoint_eq_DispDirtyRect_counterexample :
    DispDirtyPoint DispDirtyNone 2147483647 0 = DispDirtyNone ∧
      DispDirtyRect DispDirtyNone 2147483647 0 1 1 =
        { DispDirtyX1 := 320, DispDirtyX2 := 0, DispDirtyY1 := 0, DispDirtyY2 := 1 } ∧
      DispDirtyPoint DispDirtyNone 2147483647 0 ≠ DispDirtyRect DispDirtyNone 2147483647 0 1 1 := by
  refine ⟨by decide, by decide, by decide⟩

/-! ## C11: reachable windows -/

/-- One axis of `DispDirtyRect` for an `int` origin: the clamped origin is not negative and
the far edge that is merged does not exceed the screen size, whatever the additions did. -/
theorem clipAxis_range (x w W xa wa wb : Int) (hW : 0 ≤ W ∧ W ≤ 65535) (hx : IsInt x)
    (hxa : (if x < 0 then (0 : Int) else x) = xa)
    (hwa : (if x < 0 then wrap32 (w + x) else w) = wa)
    (hwb : (if wrap32 (xa + wa) > W then wrap32 (W - xa) else wa) = wb) :
    0 ≤ xa ∧ wrap32 (xa + wb) ≤ W := by
  unfold IsInt at hx
  unfold wrap32 at *
  subst hxa hwa hwb
  split_ifs <;> omega

theorem DispDirtyRect_edgesOnScreen (s : Dirty) (x y w h : Int) (hx : IsInt x) (hy : IsInt y)
    (hs : s.edgesOnScreen) : (DispDirtyRect s x y w h).edgesOnScreen := by
  simp only [DispDirtyRect]
  generalize hxa : (if x < 0 then (0 : Int) else x) = xa
  generalize hwa : (if x < 0 then wrap32 (w + x) else w) = wa
  generalize hwb : (if wrap32 (xa + wa) > WIDTH then wrap32 (WIDTH - xa) else wa) = wb
  generalize hya : (if y < 0 then (0 : Int) else y) = ya
  generalize hha : (if y < 0 then wrap32 (h + y) else h) = ha
  generalize hhb : (if wrap32 (ya + ha) > HEIGHT then wrap32 (HEIGHT - ya) else ha) = hb
  obtain ⟨ax, bx⟩ := clipAxis_range x w WIDTH xa wa wb (by decide) hx hxa hwa hwb
  obtain ⟨ay, bY⟩ := clipAxis_range y h HEIGHT ya ha hb (by decide) hy hya hha hhb
  generalize wrap32 (xa + wb) = xb at *
  generalize wrap32 (ya + hb) = yb at *
  by_cases cx : wb ≤ 0
  · simpa only [cx, if_true] using hs
  · by_cases cy : hb ≤ 0
    · simpa only [cx, cy, if_true, if_false] using hs
    · simp only [cx, cy, if_false]
      simp only [Dirty.edgesOnScreen] at hs ⊢
      refine ⟨?_, ?_, ?_, ?_⟩ <;> split_ifs <;> omega

theorem DispDirtyPoint_edgesOnScreen (s : Dirty) (x y : Int) (hx : IsInt x) (hy : IsInt y)
    (hs : s.edgesOnScreen) : (DispDirtyPoint s x y).edgesOnScreen := by
  have tx := toU32_lt_iff x WIDTH hx (by decide)
  have ty := toU32_lt_iff y HEIGHT hy (by decide)
  unfold DispDirtyPoint
  by_cases hin : (0 ≤ x ∧ x < WIDTH) ∧ (0 ≤ y ∧ y < HEIGHT)
  · rw [if_pos (by rw [tx, ty]; exact hin)]
    simp only [WIDTH, HEIGHT] at hin
    simp only [Dirty.edgesOnScreen, WIDTH, HEIGHT, wrap32] at hs ⊢
    refine ⟨?_, ?_, ?_, ?_⟩ <;> split_ifs <;> omega
  · rw [if_neg (by rw [tx, ty]; exact hin)]
    exact hs

theorem DispUpdate_state (cfg : Config) (fb : Int → Int) (s : Dirty) :
    (DispUpdate cfg fb s).1 = if s.nonEmpty then DispDirtyNone else s := by
  unfold DispUpdate Dirty.nonEmpty
  split_ifs <;> rfl

theorem DispDirtyNone_edgesOnScreen : DispDirtyNone.edgesOnScreen := by
  simp only [Dirty.edgesOnScreen, DispDirtyNone, WIDTH, HEIGHT]
  omega

theorem DispDirtyAll_edgesOnScreen : DispDirtyAll.edgesOnScreen := by
  simp only [Dirty.edgesOnScreen, DispDirtyAll, WIDTH, HEIGHT]
  omega

theorem stepOp_edgesOnScreen (cfg : Config) (fb : Int → Int) (s : Dirty) (op : TrackerOp)
    (ha : opArgsInt op) (hs : s.edgesOnScreen) : (stepOp cfg fb s op).edgesOnScreen := by
  cases op with
  | DispDirtyAll => exact DispDirtyAll_edgesOnScreen
  | DispDirtyNone => exact DispDirtyNone_edgesOnScreen
  | DispDirtyRect x y w h => exact DispDirtyRect_edgesOnScreen s x y w h ha.1 ha.2.1 hs
  | DispDirtyPoint x y => exact DispDirtyPoint_edgesOnScreen s x y ha.1 ha.2 hs
  | DispUpdate =>
    simp only [stepOp, DispUpdate_state]
    split_ifs
    · exact DispDirtyNone_edgesOnScreen
    · exact hs

theorem runOps_edgesOnScreen (cfg : Config) (fb : Int → Int) (ops : List TrackerOp) :
    ∀ s : Dirty, (∀ op ∈ ops, opArgsInt op) → s.edgesOnScreen →
      (runOps cfg fb s ops).edgesOnScreen := by
  induction ops with
  | nil => intro s _ hs; exact hs
  | cons op rest ih =>
    intro s ha hs
    simp only [runOps, List.foldl_cons]
    exact ih _ (fun o ho => ha o (List.mem_cons_of_mem _ ho))
      (stepOp_edgesOnScreen cfg fb s op (ha op (List.mem_cons_self _ _)) hs)

theorem DispDirtyNone_emptyOrBox : DispDirtyNone.emptyOrBox := Or.inl rfl

theorem DispDirtyAll_emptyOrBox : DispDirtyAll.emptyOrBox := by
  right
  simp only [DispDirtyAll, WIDTH, HEIGHT]
  omega

/-- Merging a non-empty box within the screen keeps the window a non-empty box within the
screen, also when the window was the canonical empty form. -/
theorem hull_emptyOrBox (s b : Dirty) (hs : s.emptyOrBox)
    (hb : (0 ≤ b.DispDirtyX1 ∧ b.DispDirtyX1 < b.DispDirtyX2 ∧ b.DispDirtyX2 ≤ WIDTH) ∧
      (0 ≤ b.DispDirtyY1 ∧ b.DispDirtyY1 < b.DispDirtyY2 ∧ b.DispDirtyY2 ≤ HEIGHT)) :
    (s.hull b).emptyOrBox := by
  right
  rcases hs with hs | hs
  · subst hs
    simp only [Dirty.hull, DispDirtyNone, WIDTH, HEIGHT] at hb ⊢
    omega
  · simp only [Dirty.hull, WIDTH, HEIGHT] at hb hs ⊢
    omega

theorem DispDirtyRect_emptyOrBox (s : Dirty) (x y w h : Int)
    (hx : IsInt x) (hy : IsInt y) (hxw : IsInt (x + w)) (hyh : IsInt (y + h))
    (hs : s.emptyOrBox) : (DispDirtyRect s x y w h).emptyOrBox := by
  rw [DispDirtyRect_eq s x y w h hx hy hxw hyh]
  split_ifs with hne
  · apply hull_emptyOrBox s _ hs
    simp only [clipRect, Dirty.nonEmpty, WIDTH, HEIGHT] at hne ⊢
    omega
  · exact hs

theorem DispDirtyPoint_emptyOrBox (s : Dirty) (x y : Int) (hx : IsInt x) (hy : IsInt y)
    (hs : s.emptyOrBox) : (DispDirtyPoint s x y).emptyOrBox := by
  have tx := toU32_lt_iff x WIDTH hx (by decide)
  have ty := toU32_lt_iff y HEIGHT hy (by decide)
  by_cases hin : (0 ≤ x ∧ x < WIDTH) ∧ (0 ≤ y ∧ y < HEIGHT)
  · have e : DispDirtyPoint s x y = s.hull ⟨x, x + 1, y, y + 1⟩ := by
      unfold DispDirtyPoint
      rw [if_pos (by rw [tx, ty]; exact hin)]
      simp only [WIDTH, HEIGHT] at hin
      simp only [Dirty.hull, wrap32, Dirty.mk.injEq]
      refine ⟨?_, ?_, ?_, ?_⟩ <;> split_ifs <;> omega
    rw [e]
    apply hull_emptyOrBox s _ hs
    simp only [WIDTH, HEIGHT] at hin ⊢
    omega
  · unfold DispDirtyPoint
    rw [if_neg (by rw [tx, ty]; exact hin)]
    exact hs

theorem stepOp_emptyOrBox (cfg : Config) (fb : Int → Int) (s : Dirty) (op : TrackerOp)
    (ha : opArgsInt op) (hn : opNoOverflow op) (hs : s.emptyOrBox) :
    (stepOp cfg fb s op).emptyOrBox := by
  cases op with
  | DispDirtyAll => exact DispDirtyAll_emptyOrBox
  | DispDirtyNone => exact DispDirtyNone_emptyOrBox
  | DispDirtyRect x y w h => exact DispDirtyRect_emptyOrBox s x y w h ha.1 ha.2.1 hn.1 hn.2 hs
  | DispDirtyPoint x y => exact DispDirtyPoint_emptyOrBox s x y ha.1 ha.2 hs
  | DispUpdate =>
    simp only [stepOp, DispUpdate_state]
    split_ifs
    · exact DispDirtyNone_emptyOrBox
    · exact hs

theorem runOps_emptyOrBox (cfg : Config) (fb : Int → Int) (ops : List TrackerOp) :
    ∀ s : Dirty, (∀ op ∈ ops, opArgsInt op) → (∀ op ∈ ops, opNoOverflow op) → s.emptyOrBox →
      (runOps cfg fb s ops).emptyOrBox := by
  induction ops with
  | nil => intro s _ _ hs; exact hs
  | cons op rest ih =>
    intro s ha hn hs
    simp only [runOps, List.foldl_cons]
    exact ih _ (fun o ho => ha o (List.mem_cons_of_mem _ ho))
      (fun o ho => hn o (List.mem_cons_of_mem _ ho))
      (stepOp_emptyOrBox cfg fb s op (ha op (List.mem_cons_self _ _))
        (hn op (List.mem_cons_self _ _)) hs)

/-- Every cell the row loop reads is `s0 + k * WIDTH + j / 2` for a row `k` below the row
count and a byte `j` below the row length. -/
theorem DispUpdateRowsCells_mem (len : Int) (n : Nat) :
    ∀ (s0 i : Int), i ∈ DispUpdateRowsCells len n s0 →
      ∃ k j : Nat, k < n ∧ j < len.toNat ∧ i = s0 + (k : Int) * WIDTH + ((j / 2 : Nat) : Int) := by
  induction n with
  | zero => intro s0 i hi; simp [DispUpdateRowsCells] at hi
  | succ n ih =>
    intro s0 i hi
    simp only [DispUpdateRowsCells, List.mem_append] at hi
    rcases hi with hi | hi
    · simp only [FrameBufCells, List.mem_map, List.mem_range] at hi
      obtain ⟨j, hj, e⟩ := hi
      exact ⟨0, j, Nat.succ_pos n, hj, by rw [← e]; simp⟩
    · obtain ⟨k, j, hk, hj, e⟩ := ih _ _ hi
      refine ⟨k + 1, j, Nat.succ_lt_succ hk, hj, ?_⟩
      rw [e]
      push_cast
      ring

/-- In a window with its edges on the screen, every cell `DispUpdate` reads lies in
`FrameBuf[0 .. WIDTH*HEIGHT-1]`. -/
theorem DispUpdateCells_bound (s : Dirty) (hs : s.edgesOnScreen) (i : Int)
    (hi : i ∈ DispUpdateCells s) : 0 ≤ i ∧ i < WIDTH * HEIGHT := by
  unfold DispUpdateCells at hi
  split_ifs at hi with hg
  · simp only [Dirty.edgesOnScreen, WIDTH, HEIGHT] at hs
    have e1 : wrap32 (s.DispDirtyX2 - s.DispDirtyX1) = s.DispDirtyX2 - s.DispDirtyX1 :=
      wrap32_of_isInt _ (by unfold IsInt; omega)
    have e2 : wrap32 ((s.DispDirtyX2 - s.DispDirtyX1) * 2) = (s.DispDirtyX2 - s.DispDirtyX1) * 2 :=
      wrap32_of_isInt _ (by unfold IsInt; omega)
    have e3 : wrap32 (s.DispDirtyY2 - s.DispDirtyY1) = s.DispDirtyY2 - s.DispDirtyY1 :=
      wrap32_of_isInt _ (by unfold IsInt; omega)
    have e4 : wrap32 (s.DispDirtyY1 * 320) = s.DispDirtyY1 * 320 :=
      wrap32_of_isInt _ (by unfold IsInt; omega)
    have e5 : wrap32 (s.DispDirtyX1 + s.DispDirtyY1 * 320) =
        s.DispDirtyX1 + s.DispDirtyY1 * 320 :=
      wrap32_of_isInt _ (by unfold IsInt; omega)
    simp only [WIDTH] at hi
    rw [e1, e2, e3, e4, e5] at hi
    obtain ⟨k, j, hk, hj, e⟩ := DispUpdateRowsCells_mem _ _ _ _ hi
    simp only [WIDTH] at e
    simp only [WIDTH, HEIGHT]
    omega
  · simp at hi

/-- The bytes of a block depend on the frame buffer only through the cells under it. -/
theorem FrameBufBytes_congr (fb fb2 : Int → Int) (s0 len : Int)
    (h : ∀ i ∈ FrameBufCells s0 len, fb i = fb2 i) :
    FrameBufBytes fb s0 len = FrameBufBytes fb2 s0 len := by
  unfold FrameBufBytes
  apply List.map_congr_left
  intro j hj
  have e := h (s0 + ((j / 2 : Nat) : Int)) (List.mem_map.mpr ⟨j, hj, rfl⟩)
  rw [e]

theorem DispUpdateRows_congr (dma : Bool) (fb fb2 : Int → Int) (len : Int) (n : Nat) :
    ∀ s0 : Int, (∀ i ∈ DispUpdateRowsCells len n s0, fb i = fb2 i) →
      DispUpdateRows dma fb len n s0 = DispUpdateRows dma fb2 len n s0 := by
  induction n with
  | zero => intro s0 _; rfl
  | succ n ih =>
    intro s0 h
    simp only [DispUpdateRows]
    rw [FrameBufBytes_congr fb fb2 s0 len
        (fun i hi => h i (by simp only [DispUpdateRowsCells, List.mem_append]; exact Or.inl hi)),
      ih (s0 + WIDTH)
        (fun i hi => h i (by simp only [DispUpdateRowsCells, List.mem_append]; exact Or.inr hi))]

/-- The cells listed by `DispUpdateCells` are all that `DispUpdate` reads of the frame buffer:
two frame buffers that agree on them give the same window and the same bus activity. -/
theorem DispUpdate_congr (cfg : Config) (fb fb2 : Int → Int) (s : Dirty)
    (h : ∀ i ∈ DispUpdateCells s, fb i = fb2 i) :
    DispUpdate cfg fb s = DispUpdate cfg fb2 s := by
  unfold DispUpdateCells at h
  unfold DispUpdate
  split_ifs at h ⊢ with hg
  · simp only []
    rw [DispUpdateRows_congr _ fb fb2 _ _ _ h]
  · rfl

/-- C11 (amended): every dirty window reachable from `DispDirtyNone` or `DispDirtyAll` by any
sequence of `DispDirtyAll`, `DispDirtyNone`, `DispDirtyRect`, `DispDirtyPoint` and `DispUpdate`
calls with arbitrary 32-bit `int` arguments has all four edges on the screen,
0 <= x1, x2 <= WIDTH and 0 <= y1, y2 <= HEIGHT; if moreover no `DispDirtyRect` call of the
sequence has a far edge `x+w` or `y+h` beyond the 32-bit `int` range, the window is either the
canonical empty form (x1=WIDTH, x2=0, y1=HEIGHT, y2=0) or a non-empty box within the screen,
0 <= x1 < x2 <= WIDTH and 0 <= y1 < y2 <= HEIGHT.  In every reachable window, every `FrameBuf`
index `DispUpdate` reads is at least 0 and below WIDTH*HEIGHT. -/
theorem tracker_reachable_invariant (cfg : Config) (fb : Int → Int) (init : Dirty)
    (ops : List TrackerOp) (hinit : init = DispDirtyNone ∨ init = DispDirtyAll)
    (hargs : ∀ op ∈ ops, opArgsInt op) :
    (runOps cfg fb init ops).edgesOnScreen ∧
      ((∀ op ∈ ops, opNoOverflow op) → (runOps cfg fb init ops).emptyOrBox) ∧
      (∀ i ∈ DispUpdateCells (runOps cfg fb init ops), 0 ≤ i ∧ i < WIDTH * HEIGHT) := by
  have he : init.edgesOnScreen := by
    rcases hinit with h | h <;> rw [h]
    · exact DispDirtyNone_edgesOnScreen
    · exact DispDirtyAll_edgesOnScreen
  have hb : init.emptyOrBox := by
    rcases hinit with h | h <;> rw [h]
    · exact DispDirtyNone_emptyOrBox
    · exact DispDirtyAll_emptyOrBox
  have hr := runOps_edgesOnScreen cfg fb ops init hargs he
  exact ⟨hr, fun hn => runOps_emptyOrBox cfg fb ops init hargs hn hb,
    fun i hi => DispUpdateCells_bound _ hr i hi⟩

/-- Witness for C11: from the cleared window, the calls `DispDirtyRect(-5,10,20,30)`,
`DispDirtyPoint(300,200)`, `DispUpdate()`, `DispDirtyRect(1,0,2147483647,1)`,
`DispDirtyPoint(7,9)`. -/
theorem tracker_reachable_invariant_witness :
    (runOps ⟨0, 0, false⟩ (fun _ => 0) DispDirtyNone
        [TrackerOp.DispDirtyRect (-5) 10 20 30, TrackerOp.DispDirtyPoint 300 200,
          TrackerOp.DispUpdate, TrackerOp.DispDirtyRect 1 0 2147483647 1,
          TrackerOp.DispDirtyPoint 7 9]).edgesOnScreen ∧
      (∀ i ∈ DispUpdateCells (runOps ⟨0, 0, false⟩ (fun _ => 0) DispDirtyNone
        [TrackerOp.DispDirtyRect (-5) 10 20 30, TrackerOp.DispDirtyPoint 300 200,
          TrackerOp.DispUpdate, TrackerOp.DispDirtyRect 1 0 2147483647 1,
          TrackerOp.DispDirtyPoint 7 9]), 0 ≤ i ∧ i < WIDTH * HEIGHT) :=
  ⟨(tracker_reachable_invariant ⟨0, 0, false⟩ (fun _ => 0) DispDirtyNone _ (Or.inl rfl)
      (by decide)).1,
    (tracker_reachable_invariant ⟨0, 0, false⟩ (fun _ => 0) DispDirtyNone _ (Or.inl rfl)
      (by decide)).2.2⟩

/-- Counterexample to C11 as stated: the single call `DispDirtyRect(1, 0, 2147483647, 1)` on
the cleared window has `int` arguments and leaves the window (1, 0, 0, 1), which is neither the
canonical empty form (320, 0, 240, 0) nor a non-empty box (x1 = 1 is not below x2 = 0):
`x + w` overflows the 32-bit `int` and wraps to -2147483648, so `w` is not clamped and the
far edge is not merged, while the row edges are. -/
theorem tracker_reachable_invariant_counterexample :
    opArgsInt (TrackerOp.DispDirtyRect 1 0 2147483647 1) ∧
      runOps ⟨0, 0, false⟩ (fun _ => 0) DispDirtyNone [TrackerOp.DispDirtyRect 1 0 2147483647 1] =
        { DispDirtyX1 := 1, DispDirtyX2 := 0, DispDirtyY1 := 0, DispDirtyY2 := 1 } ∧
      ¬ (runOps ⟨0, 0, false⟩ (fun _ => 0) DispDirtyNone
        [TrackerOp.DispDirtyRect 1 0 2147483647 1]).emptyOrBox := by
  refine ⟨by decide, by decide, by decide⟩

/-! ## C3: the window after a flush -/

/-- C3 (amended): for every dirty window before the call, `DispUpdate` leaves the canonical
empty form (x1=WIDTH, x2=0, y1=HEIGHT, y2=0) when the window was non-empty (x1<x2 and y1<y2),
and leaves the four integers unchanged when the window was empty (x1>=x2 or y1>=y2).  So the
window after the call is the canonical empty form whenever the window before was the
canonical empty form or a non-empty box, and it never holds a pixel; an empty window in
another form, such as the zero-initialised 0,0,0,0, stays as it is. -/
theorem DispUpdate_clears (cfg : Config) (fb : Int → Int) (s : Dirty) :
    (s.nonEmpty → (DispUpdate cfg fb s).1 = DispDirtyNone) ∧
      (¬ s.nonEmpty → (DispUpdate cfg fb s).1 = s) ∧
      (s.emptyOrBox → (DispUpdate cfg fb s).1 = DispDirtyNone) ∧
      ¬ (DispUpdate cfg fb s).1.nonEmpty := by
  rw [DispUpdate_state]
  refine ⟨fun h => if_pos h, fun h => if_neg h, ?_, ?_⟩
  · intro h
    rcases h with h | h
    · rw [h]
      decide
    · rw [if_pos]
      simp only [Dirty.nonEmpty]
      omega
  · split_ifs with h
    · decide
    · exact h

/-- Witness for C3: the non-empty window (3,7,1,2) is cleared to the canonical empty form, the
empty window (5,5,0,9) is kept, and the full window is cleared. -/
theorem DispUpdate_clears_witness :
    (DispUpdate ⟨0, 0, false⟩ (fun _ => 0) ⟨3, 7, 1, 2⟩).1 = DispDirtyNone ∧
      (DispUpdate ⟨0, 0, false⟩ (fun _ => 0) ⟨5, 5, 0, 9⟩).1 = ⟨5, 5, 0, 9⟩ ∧
      (DispUpdate ⟨0, 0, true⟩ (fun _ => 0) DispDirtyAll).1 = DispDirtyNone :=
  ⟨(DispUpdate_clears ⟨0, 0, false⟩ (fun _ => 0) ⟨3, 7, 1, 2⟩).1 (by decide),
    (DispUpdate_clears ⟨0, 0, false⟩ (fun _ => 0) ⟨5, 5, 0, 9⟩).2.1 (by decide),
    (DispUpdate_clears ⟨0, 0, true⟩ (fun _ => 0) DispDirtyAll).2.2.1 (by decide)⟩

/-- Counterexample to C3 as stated: on the zero-initialised window (0,0,0,0) the guard
`(DispDirtyX1 < DispDirtyX2) && (DispDirtyY1 < DispDirtyY2)` fails, so `DispUpdate` does not
reach `DispDirtyNone()`: the window is still (0,0,0,0), not the canonical empty form, and
nothing is sent. -/
theorem DispUpdate_clears_counterexample :
    DispUpdate ⟨0, 0, false⟩ (fun _ => 0) ⟨0, 0, 0, 0⟩ = (⟨0, 0, 0, 0⟩, []) ∧
      (DispUpdate ⟨0, 0, false⟩ (fun _ => 0) ⟨0, 0, 0, 0⟩).1 ≠ DispDirtyNone := by
  refine ⟨by decide, by decide⟩

/-! ## C10: rotation table -/

/-- C10: for every rotation index 0..3 the bus activity of `DispRotation` is the command
`MADCTL` (0x36) with the one data byte `RotationTab[rot]`, and the four table values are
0x00, 0x60 = MADCTL_MX|MADCTL_MV, 0xC0 = MADCTL_MY|MADCTL_MX and 0xA0 = MADCTL_MY|MADCTL_MV. -/
theorem DispRotation_table :
    (∀ rot : Fin 4,
        DispRotation rot.val = DispWriteCmdData 0x36 [RotationTab.getD rot.val 0] ∧
          sentBytes (DispRotation rot.val) = [0x36, RotationTab.getD rot.val 0]) ∧
      RotationTab.length = 4 ∧
      RotationTab.getD 0 0 = 0x00 ∧
      RotationTab.getD 1 0 = 0x60 ∧
      RotationTab.getD 1 0 = Int.lor ST7789_MADCTL_MX ST7789_MADCTL_MV ∧
      RotationTab.getD 2 0 = 0xC0 ∧
      RotationTab.getD 2 0 = Int.lor ST7789_MADCTL_MY ST7789_MADCTL_MX ∧
      RotationTab.getD 3 0 = 0xA0 ∧
      RotationTab.getD 3 0 = Int.lor ST7789_MADCTL_MY ST7789_MADCTL_MV := by
  refine ⟨?_, by decide, by decide, by decide, by decide, by decide, by decide, by decide,
    by decide⟩
  decide

/-! ## C6: window addressing -/

/-- The memory bytes of the `u16` cell that holds `ENDIAN16` of a 32-bit sum are the low 16
bits of the sum, high byte first. -/
theorem u16Bytes_ENDIAN16_of (k v : Int) (hk : k % 65536 = v % 65536) :
    u16Bytes (toU16 (ENDIAN16 k)) = be16 v := by
  have h1 : (k / 256) % 256 = (v % 65536) / 256 := by omega
  have h2 : k % 256 = (v % 65536) % 256 := by omega
  simp only [u16Bytes, toU16, ENDIAN16, be16, h1, h2, List.cons.injEq, and_true]
  have b1 : 0 ≤ (v % 65536) / 256 ∧ (v % 65536) / 256 < 256 := by omega
  have b2 : 0 ≤ (v % 65536) % 256 ∧ (v % 65536) % 256 < 256 := by omega
  generalize (v % 65536) / 256 = hi at *
  generalize (v % 65536) % 256 = lo at *
  constructor <;> omega

theorem u16Bytes_ENDIAN16 (v : Int) :
    u16Bytes (toU16 (ENDIAN16 (wrap32 v))) = be16 v :=
  u16Bytes_ENDIAN16_of _ _ (by unfold wrap32; omega)

theorem u16Bytes_ENDIAN16_end (v o : Int) :
    u16Bytes (toU16 (ENDIAN16 (wrap32 (wrap32 (v - 1) + o)))) = be16 (v - 1 + o) :=
  u16Bytes_ENDIAN16_of _ _ (by unfold wrap32; omega)

/-- C6: for all window edges, `DispWindow(x1,x2,y1,y2)` emits the command CASET (0x2A) with the
4 data bytes of the two 16-bit values x1+DISP_OFFSET_X and x2-1+DISP_OFFSET_X, each high byte
first, then RASET (0x2B) with y1+DISP_OFFSET_Y and y2-1+DISP_OFFSET_Y encoded the same way,
then RAMWR (0x2C) with no data. -/
theorem DispWindow_bytes (cfg : Config) (x1 x2 y1 y2 : Int) :
    DispWindow cfg x1 x2 y1 y2 =
        DispWriteCmdData 0x2A
            (be16 (x1 + cfg.DISP_OFFSET_X) ++ be16 (x2 - 1 + cfg.DISP_OFFSET_X)) ++
          DispWriteCmdData 0x2B
            (be16 (y1 + cfg.DISP_OFFSET_Y) ++ be16 (y2 - 1 + cfg.DISP_OFFSET_Y)) ++
          DispWriteCmd 0x2C ∧
      sentBytes (DispWindow cfg x1 x2 y1 y2) =
        [0x2A] ++ be16 (x1 + cfg.DISP_OFFSET_X) ++ be16 (x2 - 1 + cfg.DISP_OFFSET_X) ++
          [0x2B] ++ be16 (y1 + cfg.DISP_OFFSET_Y) ++ be16 (y2 - 1 + cfg.DISP_OFFSET_Y) ++
          [0x2C] := by
  have e : DispWindow cfg x1 x2 y1 y2 =
      DispWriteCmdData 0x2A
          (be16 (x1 + cfg.DISP_OFFSET_X) ++ be16 (x2 - 1 + cfg.DISP_OFFSET_X)) ++
        DispWriteCmdData 0x2B
          (be16 (y1 + cfg.DISP_OFFSET_Y) ++ be16 (y2 - 1 + cfg.DISP_OFFSET_Y)) ++
        DispWriteCmd 0x2C := by
    simp only [DispWindow, ST7789_CASET, ST7789_RASET, ST7789_RAMWR]
    rw [u16Bytes_ENDIAN16_end, u16Bytes_ENDIAN16_end, u16Bytes_ENDIAN16, u16Bytes_ENDIAN16]
  refine ⟨e, ?_⟩
  rw [e]
  simp [DispWriteCmdData, DispWriteCmd, CS_ON, CS_OFF, DC_CMD, DC_DATA, sentBytes, be16]

/-! ## C5: auto update interval -/

/-- C5 (amended): for every interval `ms` of at most 4294967 ms (so that `ms*1000` fits the
`u32`), every stored `DispAutoUpdateLast` and every timer reading, `DispAutoUpdate(ms)`
performs `DispUpdate` and stores the new time exactly when the 32-bit unsigned difference
`Time() - DispAutoUpdateLast` is at least `ms*1000` microseconds, and otherwise does nothing;
with interval 100 ms, a call 50 ms after an auto-update does not flush and a call 150 ms after
it does, also across the wrap-around of the timer. -/
theorem DispAutoUpdate_interval (cfg : Config) (fb : Int → Int) (st : AutoState)
    (ms t1 t2 : Int) (hms : 0 ≤ ms ∧ ms ≤ 4294967) :
    DispAutoUpdate cfg fb st ms t1 t2 =
        (if ms * 1000 ≤ toU32 (t1 - st.DispAutoUpdateLast) then
          ({ dirty := (DispUpdate cfg fb st.dirty).1, DispAutoUpdateLast := t2 },
            (DispUpdate cfg fb st.dirty).2)
        else (st, [])) ∧
      (ms = 100 → t1 = toU32 (st.DispAutoUpdateLast + 50000) →
        DispAutoUpdate cfg fb st ms t1 t2 = (st, [])) ∧
      (ms = 100 → t1 = toU32 (st.DispAutoUpdateLast + 150000) →
        DispAutoUpdate cfg fb st ms t1 t2 =
          ({ dirty := (DispUpdate cfg fb st.dirty).1, DispAutoUpdateLast := t2 },
            (DispUpdate cfg fb st.dirty).2)) := by
  have hus : toU32 (ms * 1000) = ms * 1000 := by
    unfold toU32
    omega
  have e : DispAutoUpdate cfg fb st ms t1 t2 =
      (if ms * 1000 ≤ toU32 (t1 - st.DispAutoUpdateLast) then
        ({ dirty := (DispUpdate cfg fb st.dirty).1, DispAutoUpdateLast := t2 },
          (DispUpdate cfg fb st.dirty).2)
      else (st, [])) := by
    simp only [DispAutoUpdate, hus, ge_iff_le]
  refine ⟨e, ?_, ?_⟩
  · intro h1 h2
    rw [e, if_neg]
    subst h1 h2
    unfold toU32
    omega
  · intro h1 h2
    rw [e, if_pos]
    subst h1 h2
    unfold toU32
    omega

/-- Witness for C5: interval 100 ms, last auto-update at timer value 4294960000 (7296 us
before the timer wraps), dirty window (0,1,0,1).  A call at timer value 42704 (50 ms later)
sends nothing; a call at timer value 142704 (150 ms later) flushes. -/
theorem DispAutoUpdate_interval_witness :
    DispAutoUpdate ⟨0, 0, false⟩ (fun _ => 0) ⟨⟨0, 1, 0, 1⟩, 4294960000⟩ 100 42704 42705 =
        (⟨⟨0, 1, 0, 1⟩, 4294960000⟩, []) ∧
      DispAutoUpdate ⟨0, 0, false⟩ (fun _ => 0) ⟨⟨0, 1, 0, 1⟩, 4294960000⟩ 100 142704 142705 =
        (⟨(DispUpdate ⟨0, 0, false⟩ (fun _ => 0) ⟨0, 1, 0, 1⟩).1, 142705⟩,
          (DispUpdate ⟨0, 0, false⟩ (fun _ => 0) ⟨0, 1, 0, 1⟩).2) :=
  ⟨(DispAutoUpdate_interval ⟨0, 0, false⟩ (fun _ => 0) ⟨⟨0, 1, 0, 1⟩, 4294960000⟩ 100 42704
      42705 (by decide)).2.1 rfl (by decide),
    (DispAutoUpdate_interval ⟨0, 0, false⟩ (fun _ => 0) ⟨⟨0, 1, 0, 1⟩, 4294960000⟩ 100 142704
      142705 (by decide)).2.2 rfl (by decide)⟩

/-- Counterexample to C5 as stated: with interval `ms` = 4294968 (about 71.6 minutes) the
product `ms*1000` = 4294968000 does not fit the `u32` and `us` becomes 704.  With the last
auto-update at timer value 0 and the dirty window (0,1,0,1), a call at timer value 704, that
is 704 us and less than one millisecond after the auto-update, performs the flush: the window
is cleared, the time is stored and bytes are sent. -/
theorem DispAutoUpdate_interval_counterexample :
    toU32 (704 - 0) < 4294968 * 1000 ∧
      (DispAutoUpdate ⟨0, 0, false⟩ (fun _ => 0) ⟨⟨0, 1, 0, 1⟩, 0⟩ 4294968 704 705).1 =
        ⟨DispDirtyNone, 705⟩ ∧
      (DispAutoUpdate ⟨0, 0, false⟩ (fun _ => 0) ⟨⟨0, 1, 0, 1⟩, 0⟩ 4294968 704 705).2 ≠ [] := by
  refine ⟨by decide, by decide, by decide⟩

/-! ## C4: flush output -/

/-- The row loop sends one transfer per row; the `k`-th starts `k` strides after `s0`. -/
theorem DispUpdateRows_eq (dma : Bool) (fb : Int → Int) (len : Int) (n : Nat) :
    ∀ s0 : Int, DispUpdateRows dma fb len n s0 =
      (List.range n).flatMap fun k =>
        DispUpdateWrite dma (FrameBufBytes fb (s0 + (k : Int) * WIDTH) len) := by
  induction n with
  | zero => intro s0; rfl
  | succ n ih =>
    intro s0
    rw [List.range_succ_eq_map, List.flatMap_cons, List.flatMap_map, DispUpdateRows, ih]
    congr 1
    · simp [DispUpdateWrite]
    · apply congrArg
      funext k
      congr 2
      simp only [Nat.succ_eq_add_one]
      push_cast
      ring

theorem FrameBufBytes_length (fb : Int → Int) (s0 len : Int) :
    (FrameBufBytes fb s0 len).length = len.toNat := by
  simp [FrameBufBytes]

/-- C4: for every dirty window with 0 <= x1 < x2 <= WIDTH and 0 <= y1 < y2 <= HEIGHT and every
frame-buffer content, the bus activity of `DispUpdate` is the synchronisation byte, then
`DispWindow(x1,x2,y1,y2)`, then y2-y1 data transfers, the k-th of which carries the
(x2-x1)*2 bytes of `FrameBuf` that start at index x1 + (y1+k)*WIDTH; when the window is empty
(x1 >= x2 or y1 >= y2) `DispUpdate` produces no bus activity at all. -/
theorem DispUpdate_output (cfg : Config) (fb : Int → Int) (s : Dirty) :
    ((0 ≤ s.DispDirtyX1 ∧ s.DispDirtyX1 < s.DispDirtyX2 ∧ s.DispDirtyX2 ≤ WIDTH) ∧
        (0 ≤ s.DispDirtyY1 ∧ s.DispDirtyY1 < s.DispDirtyY2 ∧ s.DispDirtyY2 ≤ HEIGHT) →
      (DispUpdate cfg fb s).2 =
          DispSync ++
            DispWindow cfg s.DispDirtyX1 s.DispDirtyX2 s.DispDirtyY1 s.DispDirtyY2 ++
            (List.range (s.DispDirtyY2 - s.DispDirtyY1).toNat).flatMap (fun k =>
              DispUpdateWrite (cfg.USE_DISP_DMA && decide (s.DispDirtyX2 - s.DispDirtyX1 > 20))
                (FrameBufBytes fb (s.DispDirtyX1 + (s.DispDirtyY1 + (k : Int)) * WIDTH)
                  ((s.DispDirtyX2 - s.DispDirtyX1) * 2))) ∧
        (∀ k : Nat,
          (FrameBufBytes fb (s.DispDirtyX1 + (s.DispDirtyY1 + (k : Int)) * WIDTH)
            ((s.DispDirtyX2 - s.DispDirtyX1) * 2)).length =
              ((s.DispDirtyX2 - s.DispDirtyX1) * 2).toNat)) ∧
      (s.DispDirtyX1 ≥ s.DispDirtyX2 ∨ s.DispDirtyY1 ≥ s.DispDirtyY2 →
        (DispUpdate cfg fb s).2 = []) := by
  constructor
  · rintro ⟨hx, hy⟩
    refine ⟨?_, fun k => FrameBufBytes_length _ _ _⟩
    simp only [WIDTH, HEIGHT] at hx hy
    have u1 : toU16 s.DispDirtyX1 = s.DispDirtyX1 := by unfold toU16; omega
    have u2 : toU16 s.DispDirtyX2 = s.DispDirtyX2 := by unfold toU16; omega
    have u3 : toU16 s.DispDirtyY1 = s.DispDirtyY1 := by unfold toU16; omega
    have u4 : toU16 s.DispDirtyY2 = s.DispDirtyY2 := by unfold toU16; omega
    have e1 : wrap32 (s.DispDirtyX2 - s.DispDirtyX1) = s.DispDirtyX2 - s.DispDirtyX1 :=
      wrap32_of_isInt _ (by unfold IsInt; omega)
    have e2 : wrap32 ((s.DispDirtyX2 - s.DispDirtyX1) * 2) = (s.DispDirtyX2 - s.DispDirtyX1) * 2 :=
      wrap32_of_isInt _ (by unfold IsInt; omega)
    have e3 : wrap32 (s.DispDirtyY2 - s.DispDirtyY1) = s.DispDirtyY2 - s.DispDirtyY1 :=
      wrap32_of_isInt _ (by unfold IsInt; omega)
    have e4 : wrap32 (s.DispDirtyY1 * WIDTH) = s.DispDirtyY1 * WIDTH :=
      wrap32_of_isInt _ (by unfold IsInt WIDTH; omega)
    have e5 : wrap32 (s.DispDirtyX1 + s.DispDirtyY1 * WIDTH) =
        s.DispDirtyX1 + s.DispDirtyY1 * WIDTH :=
      wrap32_of_isInt _ (by unfold IsInt WIDTH; omega)
    unfold DispUpdate
    rw [if_pos ⟨hx.2.1, hy.2.1⟩]
    simp only [u1, u2, u3, u4, e1, e2, e3, e4, e5, DispUpdateRows_eq]
    congr 2
    funext k
    congr 2
    ring
  · intro h
    unfold DispUpdate
    rw [if_neg]
    omega

/-- Witness for C4: the window (2,4,1,3) over the frame buffer whose cell `i` holds `i`, without
DMA: the synchronisation byte, the window (2,4,1,3), then two transfers of 4 bytes, of the
cells 322, 323 and 642, 643; and the empty window (5,5,0,9) sends nothing. -/
theorem DispUpdate_output_witness :
    (DispUpdate ⟨0, 0, false⟩ (fun i => i) ⟨2, 4, 1, 3⟩).2 =
        DispSync ++ DispWindow ⟨0, 0, false⟩ 2 4 1 3 ++
          (DispWriteData [66, 1, 67, 1] ++ DispWriteData [130, 2, 131, 2]) ∧
      (DispUpdate ⟨0, 0, false⟩ (fun i => i) ⟨5, 5, 0, 9⟩).2 = [] :=
  ⟨((DispUpdate_output ⟨0, 0, false⟩ (fun i => i) ⟨2, 4, 1, 3⟩).1 (by decide)).1.trans
      (by decide),
    (DispUpdate_output ⟨0, 0, false⟩ (fun i => i) ⟨5, 5, 0, 9⟩).2 (by decide)⟩

/-! ## C9: full refresh -/

theorem sentBytes_append (a b : List BusOp) : sentBytes (a ++ b) = sentBytes a ++ sentBytes b := by
  induction a with
  | nil => rfl
  | cons op rest ih =>
    cases op <;> simp [sentBytes, ih]

theorem sentBytes_DispUpdateWrite (dma : Bool) (data : List Int) :
    sentBytes (DispUpdateWrite dma data) = data := by
  cases dma <;>
    simp [DispUpdateWrite, DispWriteData, DispWriteDataDMA, CS_ON, CS_OFF, DC_DATA, sentBytes]

/-- A block of bytes splits at an even byte count `2 * a`: the rest starts `a` cells on. -/
theorem FrameBufBytes_split (fb : Int → Int) (s0 : Int) (a b : Nat) :
    FrameBufBytes fb s0 (((2 * a + b : Nat) : Int)) =
      FrameBufBytes fb s0 ((2 * a : Nat) : Int) ++ FrameBufBytes fb (s0 + a) ((b : Nat) : Int) := by
  simp only [FrameBufBytes, Int.toNat_ofNat, List.range_add, List.map_append, List.map_map]
  congr 1
  apply List.map_congr_left
  intro j _
  have h1 : (2 * a + j) % 2 = j % 2 := by omega
  have h2 : (2 * a + j) / 2 = a + j / 2 := by omega
  simp only [Function.comp, h1, h2]
  push_cast
  rw [add_assoc]

/-- The bytes of `n` full rows starting at cell `s0` are the bytes of the `n * WIDTH` cells
from `s0` on, in index order. -/
theorem sentBytes_fullRows (dma : Bool) (fb : Int → Int) (n : Nat) :
    ∀ s0 : Int, sentBytes (DispUpdateRows dma fb 640 n s0) =
      FrameBufBytes fb s0 ((n * 640 : Nat) : Int) := by
  induction n with
  | zero => intro s0; rfl
  | succ n ih =>
    intro s0
    have e : (n + 1) * 640 = 2 * 320 + n * 640 := by ring
    have c1 : ((2 * 320 : Nat) : Int) = 640 := by norm_num
    have c2 : s0 + ((320 : Nat) : Int) = s0 + WIDTH := by simp [WIDTH]
    have w : (if dma then DispWriteDataDMA (FrameBufBytes fb s0 640)
        else DispWriteData (FrameBufBytes fb s0 640)) =
        DispUpdateWrite dma (FrameBufBytes fb s0 640) := rfl
    rw [e, FrameBufBytes_split, c1, c2, DispUpdateRows, sentBytes_append, ih, w,
      sentBytes_DispUpdateWrite]

/-- C9: for every dirty window and every frame-buffer content, `DispUpdateAll` behaves exactly
as `DispDirtyAll` followed by `DispUpdate`: it leaves the cleared window, programs the window
(0,WIDTH,0,HEIGHT) and sends HEIGHT transfers of one full row each, row 0 first; the data
bytes sent after the window are the WIDTH*HEIGHT*2 bytes of the WIDTH*HEIGHT cells of
`FrameBuf` in index order. -/
theorem DispUpdateAll_output (cfg : Config) (fb : Int → Int) (s : Dirty) :
    DispUpdateAll cfg fb s = DispUpdate cfg fb DispDirtyAll ∧
      (DispUpdateAll cfg fb s).1 = DispDirtyNone ∧
      (∃ rows : List BusOp,
        (DispUpdateAll cfg fb s).2 = DispSync ++ DispWindow cfg 0 WIDTH 0 HEIGHT ++ rows ∧
          rows = (List.range HEIGHT.toNat).flatMap (fun k =>
            DispUpdateWrite cfg.USE_DISP_DMA
              (FrameBufBytes fb ((k : Int) * WIDTH) (WIDTH * 2))) ∧
          sentBytes rows = FrameBufBytes fb 0 (WIDTH * HEIGHT * 2) ∧
          (sentBytes rows).length = 153600 ∧
          (∀ j : Nat, j < 153600 → (sentBytes rows).get? j =
            some (if j % 2 = 0 then toU16 (fb ((j / 2 : Nat) : Int)) % 256
              else toU16 (fb ((j / 2 : Nat) : Int)) / 256))) := by
  refine ⟨rfl, rfl, DispUpdateRows cfg.USE_DISP_DMA fb 640 240 0, ?_, ?_, ?_⟩
  · simp only [DispUpdateAll, DispUpdate, DispDirtyAll, WIDTH, HEIGHT]
    rw [if_pos (by decide)]
    have d : (decide (wrap32 (320 - 0) > 20)) = true := by decide
    have l : wrap32 (wrap32 (320 - 0) * 2) = 640 := by decide
    have r : (wrap32 (240 - 0)).toNat = 240 := by decide
    have z : wrap32 (0 + wrap32 (0 * 320)) = 0 := by decide
    have a : toU16 320 = 320 := by decide
    have b : toU16 240 = 240 := by decide
    have c : toU16 0 = 0 := by decide
    simp only [d, l, r, z, a, b, c, Bool.and_true]
  · rw [DispUpdateRows_eq]
    simp only [HEIGHT, WIDTH]
    have t : (240 : Int).toNat = 240 := by decide
    rw [t]
    simp
  · have e := sentBytes_fullRows cfg.USE_DISP_DMA fb 240 0
    have e2 : sentBytes (DispUpdateRows cfg.USE_DISP_DMA fb 640 240 0) =
        FrameBufBytes fb 0 (WIDTH * HEIGHT * 2) := by
      rw [e]
      rfl
    refine ⟨e2, ?_, ?_⟩
    · rw [e, FrameBufBytes_length]
      rfl
    · intro j hj
      rw [e]
      simp only [FrameBufBytes, Int.toNat_ofNat, zero_add]
      rw [List.get?_eq_getElem?, List.getElem?_map, List.getElem?_range (by omega)]
      rfl

/-! ## C7: text clamping -/

/-- The character count `DispDrawText` keeps, when `len * w0` is representable: the text
length, cut to the number of whole glyphs that fit the screen width. -/
theorem DispDrawTextGeom_len (len w0 w1 w2 : Int) (hlen : 0 ≤ len) (hw0 : 0 < w0)
    (hmul : len * w0 ≤ 2147483647) :
    (DispDrawTextGeom len w0 w1 w2).len = min len (WIDTH / w0) ∧
      0 ≤ (DispDrawTextGeom len w0 w1 w2).len * w0 ∧
      (DispDrawTextGeom len w0 w1 w2).len * w0 ≤ WIDTH := by
  have hp : 0 ≤ len * w0 := Int.mul_nonneg hlen (le_of_lt hw0)
  have hw : wrap32 (len * w0) = len * w0 := wrap32_of_isInt _ (by unfold IsInt; omega)
  have hq : WIDTH / w0 * w0 ≤ WIDTH := Int.ediv_mul_le _ (ne_of_gt hw0)
  have hq0 : 0 ≤ WIDTH / w0 := Int.ediv_nonneg (by decide) (le_of_lt hw0)
  have ht : Int.tdiv WIDTH w0 = WIDTH / w0 := Int.tdiv_eq_ediv (by decide) (le_of_lt hw0)
  simp only [DispDrawTextGeom, hw, ht]
  by_cases c : len * w0 > WIDTH
  · simp only [c, if_true]
    have hlt : WIDTH / w0 < len := by
      by_contra hc
      have : len * w0 ≤ WIDTH / w0 * w0 :=
        Int.mul_le_mul_of_nonneg_right (not_lt.mp hc) (le_of_lt hw0)
      omega
    exact ⟨(min_eq_right (le_of_lt hlt)).symm, Int.mul_nonneg hq0 (le_of_lt hw0), hq⟩
  · simp only [c, if_false]
    have hle : len ≤ WIDTH / w0 := Int.le_ediv_of_mul_le hw0 (not_lt.mp c)
    exact ⟨(min_eq_left hle).symm, hp, not_lt.mp c⟩

/-- C7 (amended): for every text length len >= 0 and every positive glyph width w0 whose
product len*w0 is representable as a 32-bit `int`, and all integer margins w1, w2 (negative
ones included), `DispDrawText` keeps exactly min(len, floor(WIDTH / w0)) characters, and the
margins it uses satisfy 0 <= w1', 0 <= w2' and w1' + count*w0 + w2' <= WIDTH; the window width
it opens is that sum. -/
theorem DispDrawText_clamping (len w0 w1 w2 : Int) (hlen : 0 ≤ len) (hw0 : 0 < w0)
    (hmul : len * w0 ≤ 2147483647) :
    (DispDrawTextGeom len w0 w1 w2).len = min len (WIDTH / w0) ∧
      0 ≤ (DispDrawTextGeom len w0 w1 w2).len ∧
      0 ≤ (DispDrawTextGeom len w0 w1 w2).w1 ∧
      0 ≤ (DispDrawTextGeom len w0 w1 w2).w2 ∧
      (DispDrawTextGeom len w0 w1 w2).w1 + (DispDrawTextGeom len w0 w1 w2).len * w0 +
        (DispDrawTextGeom len w0 w1 w2).w2 ≤ WIDTH ∧
      (DispDrawTextGeom len w0 w1 w2).w =
        (DispDrawTextGeom len w0 w1 w2).w1 + (DispDrawTextGeom len w0 w1 w2).len * w0 +
          (DispDrawTextGeom len w0 w1 w2).w2 := by
  obtain ⟨h1, h2, h3⟩ := DispDrawTextGeom_len len w0 w1 w2 hlen hw0 hmul
  have hn : 0 ≤ (DispDrawTextGeom len w0 w1 w2).len := by
    rw [h1]
    exact le_min hlen (Int.ediv_nonneg (by decide) (le_of_lt hw0))
  refine ⟨h1, hn, ?_⟩
  simp only [DispDrawTextGeom] at h2 h3 ⊢
  generalize (if wrap32 (len * w0) > WIDTH then Int.tdiv WIDTH w0 else len) * w0 = p at *
  simp only [WIDTH] at h3 ⊢
  have e1 : wrap32 p = p := wrap32_of_isInt _ (by unfold IsInt; omega)
  have e2 : wrap32 (320 - p) = 320 - p := wrap32_of_isInt _ (by unfold IsInt; omega)
  rw [e1, e2]
  generalize hA : (if (if w1 < 0 then 0 else w1) > 320 - p then 320 - p
    else if w1 < 0 then 0 else w1) = a
  have ha : 0 ≤ a ∧ a ≤ 320 - p := by
    rw [← hA]
    split_ifs <;> omega
  have e3 : wrap32 (320 - p - a) = 320 - p - a := wrap32_of_isInt _ (by unfold IsInt; omega)
  rw [e3]
  generalize hB : (if (if w2 < 0 then 0 else w2) > 320 - p - a then 320 - p - a
    else if w2 < 0 then 0 else w2) = b
  have hb : 0 ≤ b ∧ b ≤ 320 - p - a := by
    rw [← hB]
    split_ifs <;> omega
  have e4 : wrap32 (a + p) = a + p := wrap32_of_isInt _ (by unfold IsInt; omega)
  rw [e4]
  have e5 : wrap32 (a + p + b) = a + p + b := wrap32_of_isInt _ (by unfold IsInt; omega)
  rw [e5]
  omega

/-- Witness for C7: 50 characters of width 8 with margins -3 and 1000: 40 characters are
kept, the margins become 0 and 0, the row is 320 pixels wide. -/
theorem DispDrawText_clamping_witness :
    (DispDrawTextGeom 50 8 (-3) 1000).len = min 50 (WIDTH / 8) ∧
      DispDrawTextGeom 50 8 (-3) 1000 = { len := 40, w1 := 0, w2 := 0, w := 320 } :=
  ⟨(DispDrawText_clamping 50 8 (-3) 1000 (by decide) (by decide) (by decide)).1, by decide⟩

/-- Counterexample to C7 as stated: for a text of len = 4096 characters and glyph width
w0 = 1048576 the product `len*w0` = 2^32 does not fit the 32-bit `int` and wraps to 0, so the
test `w > WIDTH` fails and all 4096 characters are kept, while
min(len, floor(WIDTH / w0)) = 0. -/
theorem DispDrawText_clamping_counterexample :
    (0 : Int) ≤ 4096 ∧ (0 : Int) < 1048576 ∧
      (DispDrawTextGeom 4096 1048576 0 0).len = 4096 ∧
      min (4096 : Int) (WIDTH / 1048576) = 0 ∧
      (DispDrawTextGeom 4096 1048576 0 0).len ≠ min 4096 (WIDTH / 1048576) := by
  refine ⟨by decide, by decide, by decide, by decide, by decide⟩

end ST7789
